import Mathlib

/-!
Verification development for the planning-agent reasoning core
(intent classifier, planner, context memory, orchestrator).

The Python sources are shallowly embedded: pure functions become Lean
functions over `List Char` / `List (String × String)` / exact fractions
`Frac`; the float arithmetic of the classifier scores is interpreted
over `ℝ` in theorem statements (with `Real.sqrt` for the `** 0.5` of
the source), while the control flow that compares scores uses an exact
decision procedure `gtScore`, proved equivalent to the real-number
ordering below.
-/

set_option maxRecDepth 4096

/-! ### Small string / character utilities (Python semantics) -/

/-- Python ASCII whitespace class `\s`. -/
def isPySpace (c : Char) : Bool :=
  c == ' ' || c == '\t' || c == '\n' || c == '\r' || c == '\x0b' || c == '\x0c'

/-- Python regex word character `\w` (ASCII fragment). -/
def isWordChar (c : Char) : Bool :=
  c.isAlphanum || c == '_'

/-- Lowercase every character, as Python `str.lower` on ASCII input. -/
def pyLower (l : List Char) : List Char := l.map Char.toLower

/-- Uppercase every character, as Python `str.upper` on ASCII input. -/
def pyUpper (l : List Char) : List Char := l.map Char.toUpper

/-- Python `str.capitalize`: first char uppercased, rest lowercased. -/
def pyCapitalize : List Char → List Char
  | [] => []
  | c :: rest => c.toUpper :: rest.map Char.toLower

/-- Python `str.strip()` (whitespace on both ends). -/
def pyStrip (l : List Char) : List Char :=
  ((l.dropWhile isPySpace).reverse.dropWhile isPySpace).reverse

/-- Collapse `\s+` runs to a single space, as `re.sub(r'\s+', ' ', s)`.
The flag records whether the previous emitted character closed a run. -/
def collapseWS : Bool → List Char → List Char
  | _, [] => []
  | prevWS, c :: rest =>
    if isPySpace c then
      if prevWS then collapseWS true rest else ' ' :: collapseWS true rest
    else c :: collapseWS false rest

/-- The classifier's `_preprocess_query`: lowercase, collapse whitespace, strip. -/
def preprocess (l : List Char) : List Char :=
  pyStrip (collapseWS false (pyLower l))

/-- Case-insensitive prefix test (both sides lowered). -/
def prefixCI : List Char → List Char → Bool
  | [], _ => true
  | _ :: _, [] => false
  | a :: as_, b :: bs => a.toLower == b.toLower && prefixCI as_ bs

/-- Case-sensitive prefix test. -/
def prefixCS : List Char → List Char → Bool
  | [], _ => true
  | _ :: _, [] => false
  | a :: as_, b :: bs => a == b && prefixCS as_ bs

/-- Python substring containment `sub in s`. -/
def containsSub (sub : List Char) : List Char → Bool
  | [] => prefixCS sub []
  | c :: rest => prefixCS sub (c :: rest) || containsSub sub rest

/-- Python `"".join`-style check used for `str.isdigit`. -/
def pyIsDigit (l : List Char) : Bool :=
  !l.isEmpty && l.all Char.isDigit

/-! ### A small regex engine

Backtracking matcher with Python `re` semantics for the constructs the
source uses: literals (case-insensitive, the source compiles everything
with `re.IGNORECASE`), `.`, `\d`, character classes, `(?:a|b)`
alternation (leftmost alternative preferred), greedy bounded repetition
`{lo,hi}`, greedy `*`, `?`, and the word boundary `\b`.  `reFind`
returns the leftmost match (earliest start, then backtracking order),
as `re.search`. -/

inductive RE where
  | eps
  | wb
  | chr (c : Char)
  | anyc
  | digit
  | cls (cs : List Char)
  | seq (a b : RE)
  | alt (a b : RE)
  | opt (a : RE)
  | rep (a : RE) (lo hi : Nat)
  | star (a : RE)
deriving Repr

/-- Character of `s` at position `i`. -/
def charAt (s : List Char) (i : Nat) : Option Char := s.get? i

/-- Word boundary `\b` at position `i` of `s`. -/
def isBoundary (s : List Char) (i : Nat) : Bool :=
  let cur := match charAt s i with
    | some c => isWordChar c
    | none => false
  let prev := if i = 0 then false else
    match charAt s (i - 1) with
    | some c => isWordChar c
    | none => false
  prev != cur

/-- Continuation-passing matcher: try to match `re` at position `i`,
calling `k` on every candidate end position in backtracking order; the
first `some` wins.  `fuel` bounds the nesting depth only (every
recursive call decrements it); the top-level entry point supplies more
fuel than any of the embedded patterns can consume. -/
def reMatch (s : List Char) : Nat → RE → Nat → (Nat → Option Nat) → Option Nat
  | 0, _, _, _ => none
  | fuel + 1, re, i, k =>
    match re with
    | .eps => k i
    | .wb => if isBoundary s i then k i else none
    | .chr c =>
      match charAt s i with
      | some d => if d.toLower == c.toLower then k (i + 1) else none
      | none => none
    | .anyc =>
      match charAt s i with
      | some d => if d == '\n' then none else k (i + 1)
      | none => none
    | .digit =>
      match charAt s i with
      | some d => if d.isDigit then k (i + 1) else none
      | none => none
    | .cls cs =>
      match charAt s i with
      | some d => if cs.contains d then k (i + 1) else none
      | none => none
    | .seq a b => reMatch s fuel a i (fun j => reMatch s fuel b j k)
    | .alt a b =>
      match reMatch s fuel a i k with
      | some r => some r
      | none => reMatch s fuel b i k
    | .opt a =>
      match reMatch s fuel a i k with
      | some r => some r
      | none => k i
    | .rep a lo hi =>
      if lo > 0 then
        reMatch s fuel a i (fun j => reMatch s fuel (.rep a (lo - 1) (hi - 1)) j k)
      else if hi = 0 then k i
      else
        match reMatch s fuel a i (fun j => reMatch s fuel (.rep a 0 (hi - 1)) j k) with
        | some r => some r
        | none => k i
    | .star a =>
      match reMatch s fuel a i
          (fun j => if j > i then reMatch s fuel (.star a) j k else none) with
      | some r => some r
      | none => k i

/-- Fuel that dominates the nesting depth of every embedded pattern. -/
def reFuel (s : List Char) : Nat := 200 + 2 * s.length

/-- End position of a match of `re` starting at `i`, if any. -/
def reMatchEnd (re : RE) (s : List Char) (i : Nat) : Option Nat :=
  reMatch s (reFuel s) re i some

/-- Leftmost match of `re` in `s`, as `(start, end)` — `re.search`. -/
def reFind (re : RE) (s : List Char) : Option (Nat × Nat) :=
  (List.range (s.length + 1)).findSome? fun i =>
    (reMatchEnd re s i).map fun j => (i, j)

/-- Whether `re.search` succeeds. -/
def reTest (re : RE) (s : List Char) : Bool := (reFind re s).isSome

/-- `match.group(0)` of the leftmost match. -/
def reGroup0 (re : RE) (s : List Char) : Option (List Char) :=
  (reFind re s).map fun ij => (s.drop ij.1).take (ij.2 - ij.1)

/-- Sequence a list of regexes. -/
def seqL (l : List RE) : RE :=
  match l with
  | [] => .eps
  | [r] => r
  | r :: rest => .seq r (seqL rest)

/-- Alternation over a list, leftmost preferred. -/
def alts (l : List RE) : RE :=
  match l with
  | [] => .eps
  | [r] => r
  | r :: rest => .alt r (alts rest)

/-- Literal string (case-insensitive, as the source's IGNORECASE). -/
def lit (s : String) : RE := seqL (s.toList.map RE.chr)

/-- Python `.{0,n}`. -/
def dotN (n : Nat) : RE := .rep .anyc 0 n

/-- Character class `\s`. -/
def wsCls : List Char := [' ', '\t', '\n', '\r', '\x0b', '\x0c']

/-- Character class `[\s_]`. -/
def wsUnd : List Char := [' ', '\t', '\n', '\r', '\x0b', '\x0c', '_']

/-! ### `re.sub(r'\b' + aliasL + r'\b', canon, s)` for literal aliases -/

/-- One pass of word-boundary-delimited literal replacement, scanning
left to right over the original string, non-overlapping, continuing
after each match — Python `re.sub` semantics for a literal pattern. -/
def subWBGo (aliasL canon : List Char) : Nat → Option Char → List Char → List Char
  | 0, _, rest => rest
  | fuel + 1, prev, rest =>
    match rest with
    | [] => []
    | c :: rs =>
      let n := aliasL.length
      let matched := rest.take n
      let startB :=
        (match prev with | some p => isWordChar p | none => false) != isWordChar c
      let endB :=
        (match matched.getLast? with | some p => isWordChar p | none => false) !=
          (match (rest.drop n).head? with | some p => isWordChar p | none => false)
      if n > 0 && prefixCI aliasL rest && startB && endB then
        canon ++ subWBGo aliasL canon fuel matched.getLast? (rest.drop n)
      else
        c :: subWBGo aliasL canon fuel (some c) rs

/-- Replace every `\b`-delimited occurrence of `aliasL` by `canon`. -/
def subWB (aliasL canon : String) (s : List Char) : List Char :=
  subWBGo aliasL.toList canon.toList (s.length + 1) none s

/-! ### Intent classifier embedding (`intent_classifier.py`) -/

/-- `IntentType` enumeration of the source. -/
inductive IntentTy where
  | data_retrieval
  | dimension_exploration
  | job_management
  | business_rule
  | reporting
  | variance_analysis
  | data_management
  | substitution_variables
  | metadata_validation
  | document_management
  | unknown
deriving DecidableEq, Repr

/-- The `value` string of each `IntentType` member. -/
def tyName : IntentTy → String
  | .data_retrieval => "data_retrieval"
  | .dimension_exploration => "dimension_exploration"
  | .job_management => "job_management"
  | .business_rule => "business_rule"
  | .reporting => "reporting"
  | .variance_analysis => "variance_analysis"
  | .data_management => "data_management"
  | .substitution_variables => "substitution_variables"
  | .metadata_validation => "metadata_validation"
  | .document_management => "document_management"
  | .unknown => "unknown"

/-- One entry of `INTENT_CONFIG`. -/
structure IntentCfg where
  ty : IntentTy
  patterns : List RE
  keywords : List String
  negKeywords : List String
  tools : List String
  subs : List (String × RE)

/-- `INTENT_CONFIG`, in source (dict-insertion) order. -/
def intentConfigs : List IntentCfg :=
  [ { ty := .data_retrieval
    , patterns :=
      [ seqL [alts [lit "get", lit "retrieve", lit "export", lit "show",
                    lit "what is", lit "what's", lit "tell me", lit "give me", lit "fetch"],
              dotN 30,
              alts [lit "data", lit "value", lit "balance", lit "amount",
                    lit "number", lit "revenue", lit "expense"]]
      , alts [lit "revenue", lit "profit", lit "income", lit "expense",
              lit "asset", lit "liability", lit "equity", lit "cash"]
      , alts [lit "rooms", lit "f&b", lit "other", lit "total revenue",
              lit "net income", lit "operating", lit "gross margin"]
      , seqL [alts [lit "how much", lit "what are the"], dotN 20,
              alts [lit "for", lit "in", lit "at"]]
      , seqL [alts [lit "pull", lit "extract"], dotN 20,
              alts [lit "data", lit "numbers", lit "figures"]] ]
    , keywords := ["data", "value", "balance", "amount", "revenue", "profit", "income",
                   "expense", "retrieve", "get", "show", "export", "pull", "fetch", "rooms"]
    , negKeywords := ["job", "status", "dimension", "member", "variable", "document"]
    , tools := ["smart_retrieve", "smart_retrieve_revenue", "smart_retrieve_monthly",
                "export_data_slice"]
    , subs :=
      [ ("single_value",
         seqL [alts [lit "what is", lit "what's", lit "show me"], dotN 20,
               .opt (alts [lit "the", lit "a"]), .star (.cls wsCls),
               alts [lit "value", lit "balance", lit "amount"]])
      , ("time_series",
         alts [lit "trend", lit "over time", lit "monthly", lit "quarterly", lit "by period"])
      , ("revenue_breakdown",
         alts [lit "revenue", lit "rooms", lit "f&b", lit "breakdown"]) ] }
  , { ty := .dimension_exploration
    , patterns :=
      [ seqL [alts [lit "list", lit "show", lit "get", lit "what are"], dotN 20,
              alts [lit "dimension", lit "member", lit "hierarchy", lit "entities",
                    lit "accounts", lit "cost centers", lit "regions"]]
      , seqL [alts [lit "what", lit "which", lit "how many"], dotN 20,
              alts [lit "entities", lit "accounts", lit "members", lit "dimensions",
                    lit "cc", lit "regions"]]
      , seqL [alts [lit "children", lit "descendants", lit "parent", lit "ancestors"],
              dotN 20, alts [lit "of", lit "for"]]
      , seqL [alts [lit "explore", lit "browse", lit "navigate"], dotN 20,
              alts [lit "hierarchy", lit "structure", lit "tree"]] ]
    , keywords := ["dimension", "member", "hierarchy", "entity", "account", "list",
                   "children", "parent", "structure", "metadata", "cost center", "region"]
    , negKeywords := ["value", "balance", "data", "job"]
    , tools := ["get_dimensions", "get_members", "get_member"]
    , subs :=
      [ ("list_all", alts [lit "all", lit "list all", lit "show all", lit "every"])
      , ("hierarchy", alts [lit "hierarchy", lit "children", lit "parent",
                            lit "structure", lit "tree"])
      , ("search", alts [lit "find", lit "search", lit "look for", lit "where is"]) ] }
  , { ty := .business_rule
    , patterns :=
      [ seqL [alts [lit "run", lit "execute", lit "trigger", lit "start"], dotN 20,
              alts [lit "rule", lit "business rule", lit "calculation", lit "calc"]]
      , seqL [alts [lit "calculate", lit "compute"], dotN 20,
              alts [lit "revenue", lit "expense", lit "net income", lit "plan"]] ]
    , keywords := ["rule", "business rule", "execute", "run", "calculate", "calc", "compute"]
    , negKeywords := ["job status"]
    , tools := ["execute_job"]
    , subs := [("run", alts [lit "run", lit "execute", lit "trigger", lit "start"])] }
  , { ty := .job_management
    , patterns :=
      [ seqL [alts [lit "job", lit "task", lit "process", lit "batch"], dotN 20,
              alts [lit "status", lit "running", lit "complete", lit "failed"]]
      , seqL [alts [lit "check", lit "monitor", lit "track", lit "what happened"], dotN 20,
              alts [lit "job", lit "task", lit "process"]]
      , seqL [alts [lit "list", lit "show", lit "get"], dotN 20,
              alts [lit "job", lit "task", lit "recent job"]]
      , seqL [alts [lit "is the", lit "did the"], dotN 20,
              alts [lit "job", lit "rule", lit "process"], dotN 20,
              alts [lit "finish", lit "complete", lit "fail"]] ]
    , keywords := ["job", "task", "process", "status", "running", "complete",
                   "failed", "monitor", "check", "batch"]
    , negKeywords := ["data"]
    , tools := ["list_jobs", "get_job_status"]
    , subs :=
      [ ("status", alts [lit "status", lit "progress", lit "state", lit "how is"])
      , ("list", alts [lit "list", lit "show", lit "recent", lit "all"]) ] }
  , { ty := .variance_analysis
    , patterns :=
      [ alts [lit "variance", lit "var", lit "difference", lit "delta", lit "change"]
      , seqL [alts [lit "actual", lit "forecast", lit "budget"], dotN 20,
              alts [lit "vs", lit "versus", lit "against", lit "compared"]]
      , seqL [alts [lit "compare", lit "comparison"], dotN 20,
              alts [lit "actual", lit "forecast", lit "budget", lit "prior"]]
      , alts [lit "year over year", lit "yoy", lit "month over month", lit "mom",
              lit "period over period"] ]
    , keywords := ["variance", "compare", "comparison", "versus", "vs", "actual",
                   "forecast", "budget", "yoy", "mom", "delta", "change"]
    , negKeywords := []
    , tools := ["smart_retrieve_variance", "smart_retrieve"]
    , subs :=
      [ ("actual_vs_forecast", seqL [lit "actual", dotN 10, alts [lit "vs", lit "versus", lit "forecast"]])
      , ("yoy", alts [lit "year over year", lit "yoy", lit "prior year", lit "py"]) ] }
  , { ty := .data_management
    , patterns :=
      [ seqL [alts [lit "copy", lit "clear", lit "delete", lit "move"], dotN 20,
              alts [lit "data", lit "numbers", lit "figures", lit "plan"]]
      , seqL [lit "copy from", dotN 20, lit "to"]
      , seqL [alts [lit "wipe", lit "clean", lit "reset"], dotN 20,
              alts [lit "scenario", lit "period", lit "year"]] ]
    , keywords := ["copy", "clear", "delete", "move", "wipe", "clean", "reset"]
    , negKeywords := []
    , tools := ["copy_data", "clear_data"]
    , subs :=
      [ ("copy", alts [lit "copy", lit "move"])
      , ("clear", alts [lit "clear", lit "delete", lit "wipe", lit "reset"]) ] }
  , { ty := .substitution_variables
    , patterns :=
      [ alts [lit "variable", lit "sub var", lit "substitution variable"]
      , seqL [alts [lit "set", lit "update", lit "change"], dotN 20,
              alts [lit "variable", lit "value"]]
      , seqL [alts [lit "get", lit "list", lit "show"], dotN 20,
              alts [lit "variable", lit "vars"]] ]
    , keywords := ["variable", "sub var", "substitution", "set", "update"]
    , negKeywords := []
    , tools := ["get_substitution_variables", "set_substitution_variable"]
    , subs := [] }
  , { ty := .document_management
    , patterns :=
      [ alts [lit "document", lit "file", lit "library", lit "folder", lit "report file"]
      , seqL [alts [lit "list", lit "show", lit "get"], dotN 20,
              alts [lit "document", lit "file", lit "library"]] ]
    , keywords := ["document", "file", "library", "folder"]
    , negKeywords := []
    , tools := ["get_documents"]
    , subs := [] } ]

/-- `ALIASES`, in source (dict-insertion) order. -/
def aliasTable : List (String × String) :=
  [ ("january", "Jan"), ("february", "Feb"), ("march", "Mar"), ("april", "Apr")
  , ("may", "May"), ("june", "Jun"), ("july", "Jul"), ("august", "Aug")
  , ("september", "Sep"), ("october", "Oct"), ("november", "Nov"), ("december", "Dec")
  , ("q1", "Q1"), ("q2", "Q2"), ("q3", "Q3"), ("q4", "Q4")
  , ("year total", "YearTotal"), ("full year", "YearTotal"), ("annual", "YearTotal")
  , ("actuals", "Actual"), ("act", "Actual"), ("forecast", "Forecast"), ("fcst", "Forecast")
  , ("plan", "Plan"), ("budget", "Budget"), ("bud", "Budget")
  , ("net income", "Net Income"), ("ni", "Net Income")
  , ("total revenue", "400000"), ("revenue", "400000")
  , ("rooms revenue", "410000"), ("rooms", "410000")
  , ("f&b revenue", "420000"), ("f&b", "420000"), ("food and beverage", "420000")
  , ("operating expenses", "600000"), ("opex", "600000")
  , ("final version", "Final"), ("working version", "Working") ]

/-- `_replace_aliases`: lowercase, then substitute every alias. -/
def replaceAliases (q : List Char) : List Char :=
  aliasTable.foldl (fun acc av => subWB av.1 av.2 acc) (pyLower q)

/-- Python `str.replace(a, b)` for single-character `a`, `b` a single char. -/
def replaceChar (a b : Char) (l : List Char) : List Char :=
  l.map fun c => if c = a then b else c

/-- `ENTITY_PATTERNS` normalizers, one per dimension. -/
def normPeriod (l : List Char) : List Char :=
  if l.length = 3 then pyCapitalize l else l

def normYear (l : List Char) : List Char :=
  if pyIsDigit l then 'F' :: 'Y' :: l.drop (l.length - 2) else pyUpper l

def normScenario (l : List Char) : List Char := pyCapitalize l

def normAccount (l : List Char) : List Char := pyStrip (replaceChar '_' ' ' l)

def normEntity (l : List Char) : List Char := pyUpper (replaceChar '_' ' ' l)

def normNoUnderscoreUpper (l : List Char) : List Char :=
  pyUpper (l.filter fun c => c != '_')

def normVersion (l : List Char) : List Char := pyCapitalize l

def normCurrency (l : List Char) : List Char := pyUpper l

/-- `ENTITY_PATTERNS`: one regex and one normalizer per dimension,
in source (dict-insertion) order. -/
def entityPatternTable : List (String × RE × (List Char → List Char)) :=
  [ ("period",
     seqL [.wb,
           alts [lit "Jan", lit "Feb", lit "Mar", lit "Apr", lit "May", lit "Jun",
                 lit "Jul", lit "Aug", lit "Sep", lit "Oct", lit "Nov", lit "Dec",
                 .seq (.chr 'Q') (.cls ['1', '2', '3', '4']),
                 lit "YearTotal", lit "BegBal"],
           .wb],
     normPeriod)
  , ("year",
     seqL [.wb,
           alts [seqL [lit "FY", .digit, .digit],
                 seqL [.digit, .digit, .digit, .digit]],
           .wb],
     normYear)
  , ("scenario",
     seqL [.wb,
           alts [lit "Actual", lit "Forecast", lit "Budget", lit "Plan",
                 lit "Working", lit "Final"],
           .wb],
     normScenario)
  , ("account",
     seqL [.wb,
           alts [.rep .digit 5 6,
                 seqL [.cls ['4', '5', '6', '7', '8', '9'],
                       .digit, .digit, .digit, .digit, .digit],
                 seqL [lit "Total", .cls wsUnd, lit "Revenue"],
                 lit "Rooms", lit "F&B",
                 seqL [lit "Net", .cls wsUnd, lit "Income"],
                 seqL [lit "Operating", .cls wsUnd, lit "Expenses"]],
           .wb],
     normAccount)
  , ("entity",
     seqL [.wb,
           alts [.seq (.chr 'E') (.rep .digit 3 4),
                 seqL [lit "All", .cls wsUnd, lit "Entity"],
                 seqL [lit "Total", .cls wsUnd, lit "Geography"]],
           .wb],
     normEntity)
  , ("cost_center",
     seqL [.wb,
           alts [.seq (lit "CC") (.rep .digit 4 4),
                 seqL [lit "No", .cls wsUnd, lit "CostCenter"]],
           .wb],
     normNoUnderscoreUpper)
  , ("region",
     seqL [.wb,
           alts [.seq (.chr 'R') (.rep .digit 3 3),
                 seqL [lit "All", .cls wsUnd, lit "Region"]],
           .wb],
     normNoUnderscoreUpper)
  , ("version",
     seqL [.wb,
           alts [lit "Final", lit "Working", lit "Draft", .seq (lit "Version") .digit],
           .wb],
     normVersion)
  , ("currency",
     seqL [.wb,
           alts [lit "USD", lit "EUR", lit "GBP", lit "JPY", lit "BRL",
                 lit "Local", lit "Reporting"],
           .wb],
     normCurrency)
  , ("job_id",
     seqL [.wb, .rep .digit 8 8, .star .digit, .wb],
     fun l => l) ]

/-- `extract_entities`: preprocess, alias-substitute, then for each
dimension keep the first (leftmost) regex match, normalized. -/
def extractEntities (q : List Char) : List (String × String) :=
  let processed := preprocess q
  let ali := replaceAliases processed
  entityPatternTable.foldl
    (fun acc ent =>
      match reGroup0 ent.2.1 ali with
      | some v => acc ++ [(ent.1, String.mk (ent.2.2 v))]
      | none => acc)
    []

/-! ### Exact fraction arithmetic

The scores of the classifier are IEEE floats in the source; here they
are represented exactly.  `Frac` is an unnormalized fraction over `Int`
(all operations keep denominators positive), chosen over `ℚ` so that
every comparison reduces inside the kernel.  `Frac.val`-style real
interpretations and their correctness lemmas appear with the theorems. -/

structure Frac where
  num : Int
  den : Int
deriving DecidableEq, Repr

def fAdd (a b : Frac) : Frac := ⟨a.num * b.den + b.num * a.den, a.den * b.den⟩

def fSub (a b : Frac) : Frac := ⟨a.num * b.den - b.num * a.den, a.den * b.den⟩

def fMul (a b : Frac) : Frac := ⟨a.num * b.num, a.den * b.den⟩

/-- Boolean `a ≤ b` (valid for positive denominators). -/
def fLe (a b : Frac) : Bool := a.num * b.den ≤ b.num * a.den

/-- Boolean `a < b` (valid for positive denominators). -/
def fLt (a b : Frac) : Bool := a.num * b.den < b.num * a.den

/-- Python `min(a, b)`: the first argument on ties. -/
def fMin (a b : Frac) : Frac := if fLe a b then a else b

/-- Python `max(a, b)`: Python returns the first maximal argument;
`max(a, b)` is `a` when `b <= a`. -/
def fMax (a b : Frac) : Frac := if fLt a b then b else a

def fZ : Frac := ⟨0, 1⟩

def fOne : Frac := ⟨1, 1⟩

/-- `relevance_map` of `_calculate_entity_relevance` (missing intents
default to the empty list, as `dict.get(.., [])`). -/
def relevanceOf : IntentTy → List String
  | .data_retrieval => ["account", "entity", "period", "year", "scenario"]
  | .dimension_exploration => ["entity", "account", "cost_center", "region"]
  | .job_management => ["job_id"]
  | .variance_analysis => ["scenario", "period", "year", "account"]
  | .data_management => ["scenario", "period", "year"]
  | .substitution_variables => []
  | .document_management => []
  | _ => []

/-- `_calculate_keyword_score`:
`max(0, min(1, pos/len) - min(0.5, 0.15*neg))`, `0.0` if no keywords. -/
def kwScoreF (q : List Char) (kws negs : List String) : Frac :=
  if kws.isEmpty then fZ else
    let pos : Int := ((kws.filter fun kw => containsSub (pyLower kw.toList) q).length : Int)
    let neg : Int := ((negs.filter fun kw => containsSub (pyLower kw.toList) q).length : Int)
    fMax fZ (fSub (fMin fOne ⟨pos, (kws.length : Int)⟩)
                  (fMin ⟨1, 2⟩ (fMul ⟨neg, 1⟩ ⟨3, 20⟩)))

/-- `_calculate_entity_relevance`: populated fraction of the relevant
dimension slots, `0.0` when the category has none. -/
def entRelF (entities : List (String × String)) (ty : IntentTy) : Frac :=
  let rel := relevanceOf ty
  if rel.isEmpty then fZ
  else ⟨((rel.filter fun et => (entities.lookup et).isSome).length : Int), (rel.length : Int)⟩

/-- Exact representation of one intent score
`0.50·pattern_score + 0.30·keyword_score + 0.20·entity_relevance`:
`patNum` patterns matched out of `patDen`, keyword score `kw`, entity
relevance `ent`.  The real value it denotes is
`(1/2)·min 1 (√(patNum/patDen)) + (3/10)·kw + (1/5)·ent`
(with pattern score `0` when `patDen = 0`, as the source's guard). -/
structure ScoreRep where
  patNum : Nat
  patDen : Nat
  kw : Frac
  ent : Frac
deriving DecidableEq, Repr

/-- The fraction under the square root of the pattern score
(the source returns `0.0` when the pattern list is empty). -/
def patFracF (s : ScoreRep) : Frac :=
  if s.patDen = 0 then fZ else ⟨(s.patNum : Int), (s.patDen : Int)⟩

/-- The non-radical part `0.30·kw + 0.20·ent` of a score. -/
def restF (s : ScoreRep) : Frac := fAdd (fMul ⟨3, 10⟩ s.kw) (fMul ⟨1, 5⟩ s.ent)

/-- Exact decision of `score a > score b` for the real-valued scores
(the source compares IEEE floats; the embedding compares the exact
values — `gtScore_iff_real` below proves this decision procedure
agrees with the real ordering `0.5·√qa + ra > 0.5·√qb + rb`). -/
def gtScore (a b : ScoreRep) : Bool :=
  let qa := patFracF a
  let qb := patFracF b
  let t := fMul ⟨2, 1⟩ (fSub (restF b) (restF a))
  if fLe fZ t then
    let v := fSub (fSub qa qb) (fMul t t)
    fLt fZ v && fLt (fMul (fMul ⟨4, 1⟩ (fMul t t)) qb) (fMul v v)
  else
    let w := fSub (fSub qb qa) (fMul t t)
    fLt w fZ || fLt (fMul w w) (fMul (fMul ⟨4, 1⟩ (fMul t t)) qa)

/-- Python `max(items, key=score)`: the first item with maximal key
(later items replace the current best only on strict dominance). -/
def pyMaxScore : List (IntentTy × ScoreRep) → IntentTy × ScoreRep
  | [] => (.unknown, ⟨0, 0, fZ, fZ⟩)
  | h :: t => t.foldl (fun best x => if gtScore x.2 best.2 then x else best) h

/-- `_score_intents`: one `ScoreRep` per configured intent, in order. -/
def scoreIntents (q : List Char) (entities : List (String × String)) :
    List (IntentTy × ScoreRep) :=
  intentConfigs.map fun c =>
    (c.ty,
     { patNum := (c.patterns.filter fun p => reTest p q).length
     , patDen := c.patterns.length
     , kw := kwScoreF q c.keywords c.negKeywords
     , ent := entRelF entities c.ty })

/-- `INTENT_CONFIG.get(ty)`. -/
def cfgOf (ty : IntentTy) : Option IntentCfg :=
  intentConfigs.find? fun c => c.ty == ty

/-- `config.get("tools", [])`. -/
def toolsOf (ty : IntentTy) : List String :=
  match cfgOf ty with
  | some c => c.tools
  | none => []

/-- `_detect_sub_intent`: first sub-intent regex that matches. -/
def detectSub (q : List Char) (ty : IntentTy) : Option String :=
  match cfgOf ty with
  | some c => (c.subs.find? fun sr => reTest sr.2 q).map fun sr => sr.1
  | none => none

/-- The classifier's `Intent` (the derived `reasoning` string, pure
display metadata formatted from the float score, is omitted). -/
structure PIntent where
  name : String
  intentTy : IntentTy
  confidence : ScoreRep
  entities : List (String × String)
  suggested_tools : List String
  sub_intent : Option String
deriving DecidableEq, Repr

/-- `classify`, as instantiated by the orchestrator:
`PlanningIntentClassifier()` is built with `use_llm=False` and
`set_llm_reasoner` is never called, so the
`best_score < 0.3 and self.use_llm and self._llm_reasoner` branch is
dead and classification is purely rule-based. -/
def classifyQ (q : String) : PIntent :=
  let processed := preprocess q.toList
  let entities := extractEntities processed
  let scores := scoreIntents processed entities
  let best := pyMaxScore scores
  let sub := detectSub processed best.1
  { name := tyName best.1
  , intentTy := best.1
  , confidence := best.2
  , entities := entities
  , suggested_tools := toolsOf best.1
  , sub_intent := sub }

/-! ### Association lists with Python `dict` semantics

Keys are strings; `setKey` is `d[k] = v` (replace in place, else
append), `updList` is `d.update(ks)`. -/

def setKey {α : Type} (d : List (String × α)) (k : String) (v : α) : List (String × α) :=
  if (d.lookup k).isSome then
    d.map fun kv => if kv.1 = k then (k, v) else kv
  else d ++ [(k, v)]

def updList {α : Type} (d : List (String × α)) (ks : List (String × α)) : List (String × α) :=
  ks.foldl (fun acc kv => setKey acc kv.1 kv.2) d

/-! ### Context memory embedding (`context_memory.py`) -/

/-- `POVState`: the ten dimension fields; `account` is `Optional[str]`
in the source, the other nine are `str`. -/
@[ext]
structure POVState where
  years : String := "FY25"
  period : String := "YearTotal"
  scenario : String := "Actual"
  version : String := "Final"
  currency : String := "USD"
  entity : String := "E501"
  cost_center : String := "CC9999"
  future1 : String := "No Future1"
  region : String := "R131"
  account : Option String := none
deriving DecidableEq, Repr

/-- `POVState.to_dict`: all ten keys, `account` possibly `None`. -/
def povToDict (p : POVState) : List (String × Option String) :=
  [ ("years", some p.years), ("period", some p.period), ("scenario", some p.scenario)
  , ("version", some p.version), ("currency", some p.currency), ("entity", some p.entity)
  , ("cost_center", some p.cost_center), ("future1", some p.future1)
  , ("region", some p.region), ("account", p.account) ]

/-- `data.get(k, dflt)` for a string-valued field (a `None` value stored
under a present key does not arise for type-correct updates, and is
read as the default). -/
def getStrD (d : List (String × Option String)) (k dflt : String) : String :=
  ((d.lookup k).join).getD dflt

/-- `data.get(k)`. -/
def getOptD (d : List (String × Option String)) (k : String) : Option String :=
  (d.lookup k).join

/-- `POVState.from_dict`: each field from its key, with the dataclass
default when missing; unknown keys in `d` are ignored, exactly as the
source reads only the ten known keys. -/
def povFromDict (d : List (String × Option String)) : POVState :=
  { years := getStrD d "years" "FY25"
  , period := getStrD d "period" "YearTotal"
  , scenario := getStrD d "scenario" "Actual"
  , version := getStrD d "version" "Final"
  , currency := getStrD d "currency" "USD"
  , entity := getStrD d "entity" "E501"
  , cost_center := getStrD d "cost_center" "CC9999"
  , future1 := getStrD d "future1" "No Future1"
  , region := getStrD d "region" "R131"
  , account := getOptD d "account" }

/-- A `**kwargs` field assignment for `POVState.update`: `none` means
the keyword was not passed.  (Keyword arguments outside the ten field
names would be ignored by `from_dict` and are therefore not modelled;
`account=None` is expressible as `some none`.) -/
structure POVUpdate where
  years : Option String := none
  period : Option String := none
  scenario : Option String := none
  version : Option String := none
  currency : Option String := none
  entity : Option String := none
  cost_center : Option String := none
  future1 : Option String := none
  region : Option String := none
  account : Option (Option String) := none
deriving DecidableEq, Repr

/-- The kwargs dict entry for one provided string keyword. -/
def opt1 (k : String) (v : Option String) : List (String × Option String) :=
  match v with
  | some s => [(k, some s)]
  | none => []

/-- The kwargs dict entry for the `account` keyword. -/
def optA (k : String) (v : Option (Option String)) : List (String × Option String) :=
  match v with
  | some x => [(k, x)]
  | none => []

/-- The `kwargs` dict of an update. -/
def uToList (u : POVUpdate) : List (String × Option String) :=
  opt1 "years" u.years ++ opt1 "period" u.period ++ opt1 "scenario" u.scenario ++
  opt1 "version" u.version ++ opt1 "currency" u.currency ++ opt1 "entity" u.entity ++
  opt1 "cost_center" u.cost_center ++ opt1 "future1" u.future1 ++
  opt1 "region" u.region ++ optA "account" u.account

/-- `POVState.update`: `data = self.to_dict(); data.update(kwargs);
return POVState.from_dict(data)` — a functional update returning a new
value. -/
def povUpdate (p : POVState) (u : POVUpdate) : POVState :=
  povFromDict (updList (povToDict p) (uToList u))

/-- One entry of the `recent_queries` deque. -/
structure QueryRec where
  query : String
  intent : String
  entities : List (String × String)
  timestamp : Nat
deriving DecidableEq, Repr

/-- One entry of the `recent_results` deque. -/
structure ResultRec where
  tool_name : String
  params : List (String × String)
  summary : List (String × String)
  timestamp : Nat
deriving DecidableEq, Repr

/-- `deque(maxlen=m).append(x)`: append on the right, evicting from the
left whatever exceeds the capacity. -/
def addBounded {α : Type} (m : Nat) (l : List α) (x : α) : List α :=
  let l2 := l ++ [x]
  l2.drop (l2.length - m)

/-- `ConversationMemory` (timestamps are abstract clock readings passed
explicitly in place of `datetime.utcnow()`). -/
structure ConvMemory where
  pov : POVState := {}
  recent_queries : List QueryRec := []
  recent_results : List ResultRec := []
  entity_focus : Option String := none
  account_focus : Option String := none
  last_tool_used : Option String := none
  last_activity : Nat := 0
deriving DecidableEq, Repr

/-- `ConversationMemory.add_query` (capacity 10). -/
def addQuery (mem : ConvMemory) (now : Nat) (q intent : String)
    (entities : List (String × String)) : ConvMemory :=
  { mem with
    recent_queries := addBounded 10 mem.recent_queries ⟨q, intent, entities, now⟩
  , last_activity := now }

/-- `ConversationMemory.add_result` (capacity 5). -/
def addResult (mem : ConvMemory) (now : Nat) (tool : String)
    (params summary : List (String × String)) : ConvMemory :=
  { mem with
    recent_results := addBounded 5 mem.recent_results ⟨tool, params, summary, now⟩
  , last_tool_used := some tool
  , last_activity := now }

/-- An insertion into a session's buffers. -/
inductive MemOp where
  | query (now : Nat) (q intent : String) (entities : List (String × String))
  | result (now : Nat) (tool : String) (params summary : List (String × String))
deriving DecidableEq, Repr

/-- A sequence of insertions. -/
def applyOps (mem : ConvMemory) : List MemOp → ConvMemory
  | [] => mem
  | op :: rest =>
    match op with
    | .query now q i e => applyOps (addQuery mem now q i e) rest
    | .result now t p s => applyOps (addResult mem now t p s) rest

/-- `get_suggested_params`: the tool allow-list of the context memory. -/
def toolParamsCM (tool : String) : List String :=
  if tool = "smart_retrieve" then
    ["account", "entity", "period", "years", "scenario", "version", "cost_center",
     "region", "currency"]
  else if tool = "smart_retrieve_revenue" then
    ["entity", "period", "years", "scenario", "cost_center"]
  else if tool = "smart_retrieve_monthly" then
    ["account", "entity", "years", "scenario", "cost_center"]
  else if tool = "smart_retrieve_variance" then
    ["account", "entity", "period", "years", "cost_center"]
  else []

/-- `get_suggested_params`: project the POV onto the tool's legal
parameters, omitting falsy (missing or empty) values. -/
def getSuggestedParams (pov : POVState) (tool : String) : List (String × String) :=
  let d := povToDict pov
  (toolParamsCM tool).foldl
    (fun acc p =>
      match (d.lookup p).join with
      | some s => if s ≠ "" then acc ++ [(p, s)] else acc
      | none => acc)
    []

/-! ### Planner embedding (`planner.py`) -/

/-- `ExecutionStep` (the mutable execution fields `status`, `result`,
`error`, `retry_count`, `max_retries` keep their dataclass defaults at
plan-creation time and are not read by the planner; they are omitted). -/
structure PStep where
  id : Nat
  tool_name : String
  parameters : List (String × String)
  depends_on : List Nat
  description : String
  parallel_group : Nat
  optional : Bool
deriving DecidableEq, Repr

/-- `ExecutionPlan`. -/
structure PPlan where
  steps : List PStep
  name : String
  description : String
  estimated_duration : Frac
deriving DecidableEq, Repr

/-- One step template of a `PATTERNS` playbook. -/
structure TStep where
  tool : String
  params_template : List (String × String)
  desc : String
  parallel_group : Nat
  optional : Bool
deriving DecidableEq, Repr

/-- One `PATTERNS` playbook. -/
structure PatternSpec where
  pname : String
  pdesc : String
  steps : List TStep
  triggers : List String
  estimated_duration : Frac
  priority : Int
deriving DecidableEq, Repr

/-- `PATTERNS`, in source (dict-insertion) order. -/
def plannerPatterns : List PatternSpec :=
  [ { pname := "Revenue Analysis"
    , pdesc := "Analyze revenue across Rooms, F&B and Other departments"
    , steps :=
      [ ⟨"smart_retrieve_revenue", [], "Retrieve comprehensive revenue breakdown", 0, false⟩
      , ⟨"smart_retrieve_monthly", [("account", "400000")], "Retrieve monthly revenue trend",
         1, false⟩ ]
    , triggers := ["revenue", "rooms", "f&b", "sales", "income statement"]
    , estimated_duration := ⟨8, 1⟩
    , priority := 10 }
  , { pname := "Variance Analysis"
    , pdesc := "Compare actual results against forecast or prior year"
    , steps := [⟨"smart_retrieve_variance", [], "Execute variance analysis", 0, false⟩]
    , triggers := ["variance", "compare", "actual vs forecast", "actual vs budget",
                   "versus", "vs"]
    , estimated_duration := ⟨6, 1⟩
    , priority := 8 }
  , { pname := "Plan Data Copy"
    , pdesc := "Copy data between scenarios (e.g., Forecast to Budget)"
    , steps := [⟨"copy_data", [], "Copy data across scenarios/years", 0, false⟩]
    , triggers := ["copy data", "copy from", "duplicate plan"]
    , estimated_duration := ⟨15, 1⟩
    , priority := 7 }
  , { pname := "Dimension Check"
    , pdesc := "Explore dimensions and members"
    , steps :=
      [ ⟨"get_dimensions", [], "List all dimensions", 0, false⟩
      , ⟨"get_members", [("dimension_name", "Entity")], "List entity members", 1, true⟩ ]
    , triggers := ["list entities", "show dimensions", "what are the members",
                   "dimension list"]
    , estimated_duration := ⟨5, 1⟩
    , priority := 6 } ]

/-- `TOOL_DURATIONS.get(tool, 5.0)`. -/
def durationOf (tool : String) : Frac :=
  if tool = "smart_retrieve" then ⟨3, 1⟩
  else if tool = "smart_retrieve_revenue" then ⟨4, 1⟩
  else if tool = "smart_retrieve_monthly" then ⟨5, 1⟩
  else if tool = "smart_retrieve_variance" then ⟨4, 1⟩
  else if tool = "export_data_slice" then ⟨6, 1⟩
  else if tool = "get_dimensions" then ⟨2, 1⟩
  else if tool = "get_members" then ⟨3, 1⟩
  else if tool = "list_jobs" then ⟨2, 1⟩
  else if tool = "execute_job" then ⟨20, 1⟩
  else if tool = "copy_data" then ⟨15, 1⟩
  else if tool = "clear_data" then ⟨10, 1⟩
  else ⟨5, 1⟩

/-- `_match_pattern`: score each playbook by
`trigger_hits + 0.5·priority` (requiring at least one hit), keep the
first strict maximum, and return it only if its score is at least 1. -/
def matchPattern (intent : String) (entities : List (String × String))
    (subIntent : Option String) (userQuery : Option String) : Option PatternSpec :=
  let queryText : String := match userQuery with
    | some q => if q = "" then "" else String.mk (pyLower q.toList)
    | none => ""
  let combined : List Char :=
    pyLower (queryText ++ " " ++ intent ++ " " ++ (subIntent.getD "") ++ " " ++
      String.intercalate " " (entities.map fun kv => kv.2)).toList
  let best := plannerPatterns.foldl
    (fun (acc : Option PatternSpec × Frac) pat =>
      let hits := (pat.triggers.filter fun t => containsSub (pyLower t.toList) combined).length
      if hits > 0 then
        let score := fAdd ⟨(hits : Int), 1⟩ (fMul ⟨pat.priority, 1⟩ ⟨1, 2⟩)
        if fLt acc.2 score then (some pat, score) else acc
      else acc)
    (none, fZ)
  if fLe fOne best.2 then best.1 else none

/-- Per-tool legal parameter names (`tool_params` of
`_filter_params_for_tool`; unknown tools have none). -/
def toolParamsPlanner (tool : String) : List String :=
  if tool = "smart_retrieve" then
    ["account", "entity", "period", "years", "scenario", "version", "cost_center",
     "region", "currency"]
  else if tool = "smart_retrieve_revenue" then
    ["entity", "period", "years", "scenario", "cost_center"]
  else if tool = "smart_retrieve_monthly" then
    ["account", "entity", "years", "scenario", "cost_center"]
  else if tool = "smart_retrieve_variance" then
    ["account", "entity", "period", "years", "prior_year", "cost_center"]
  else if tool = "export_data_slice" then ["plan_type", "grid_definition"]
  else if tool = "get_members" then ["dimension_name"]
  else if tool = "get_member" then ["dimension_name", "member_name", "expansion"]
  else if tool = "execute_job" then ["job_type", "job_name", "parameters"]
  else if tool = "copy_data" then
    ["from_scenario", "from_year", "from_period", "to_scenario", "to_year", "to_period"]
  else if tool = "clear_data" then ["scenario", "year", "period"]
  else if tool = "get_substitution_variables" then []
  else if tool = "set_substitution_variable" then ["variable_name", "value", "plan_type"]
  else if tool = "get_documents" then []
  else if tool = "get_snapshots" then []
  else if tool = "list_jobs" then []
  else if tool = "get_job_status" then ["job_id"]
  else if tool = "get_dimensions" then []
  else []

/-- `entity_to_param.get(k, k)`. -/
def entityToParam (k : String) : String :=
  if k = "year" then "years" else k

/-- `_filter_params_for_tool`: project entities through the allow-list,
fan a `year` entity out to every year-shaped parameter, and default the
account for retrieval tools. -/
def filterParamsForTool (tool : String) (entities : List (String × String)) :
    List (String × String) :=
  let valid := toolParamsPlanner tool
  let filtered := entities.foldl
    (fun acc kv =>
      let pn := entityToParam kv.1
      if valid.contains pn then setKey acc pn kv.2 else acc)
    []
  let filtered := match entities.lookup "year" with
    | some y =>
      let f1 := if valid.contains "years" then setKey filtered "years" y else filtered
      let f2 := if valid.contains "year" then setKey f1 "year" y else f1
      let f3 := if valid.contains "from_year" then setKey f2 "from_year" y else f2
      if valid.contains "to_year" then setKey f3 "to_year" y else f3
    | none => filtered
  if prefixCS "smart_retrieve".toList tool.toList && valid.contains "account" &&
      (filtered.lookup "account").isNone then
    setKey filtered "account"
      (if containsSub "revenue".toList tool.toList then "400000" else "Net Income")
  else filtered

/-- `_calculate_dependencies`: all ids of already-built steps in the
immediately preceding parallel group. -/
def calcDeps (existing : List PStep) (tplGroup : Nat) : List Nat :=
  if tplGroup = 0 then []
  else (existing.filter fun s => s.parallel_group = tplGroup - 1).map fun s => s.id

/-- `_create_fallback_steps`: a single step on `get_application_info`
when available, else the first available tool (the step counter is `0`
whenever this is reached, so the id is `1`). -/
def fallbackSteps (available : List String) : List PStep :=
  let tool :=
    if available.contains "get_application_info" then "get_application_info"
    else match available.head? with
      | some t => t
      | none => "get_application_info"
  [⟨1, tool, [], [], "Execute " ++ tool, 0, false⟩]

/-- `_build_from_pattern`: one step per template whose tool is
available; `{**entity_params, **template_params}`; ids from the
counter. -/
def buildFromPattern (pat : PatternSpec) (entities : List (String × String))
    (available : List String) : PPlan :=
  let built := pat.steps.foldl
    (fun (acc : List PStep × Nat) tpl =>
      if available.contains tpl.tool then
        let cnt := acc.2 + 1
        let params := updList (filterParamsForTool tpl.tool entities) tpl.params_template
        let st : PStep :=
          { id := cnt, tool_name := tpl.tool, parameters := params
          , depends_on := calcDeps acc.1 tpl.parallel_group, description := tpl.desc
          , parallel_group := tpl.parallel_group, optional := tpl.optional }
        (acc.1 ++ [st], cnt)
      else acc)
    ([], 0)
  let steps := if built.1.isEmpty then fallbackSteps available else built.1
  { steps := steps, name := pat.pname, description := pat.pdesc
  , estimated_duration := pat.estimated_duration }

/-- `intent_tool_map.get(intent, ["get_application_info"])`. -/
def inferTools (intent : String) : List String :=
  if intent = "data_retrieval" then ["smart_retrieve"]
  else if intent = "dimension_exploration" then ["get_dimensions", "get_members"]
  else if intent = "job_management" then ["list_jobs"]
  else if intent = "reporting" then ["get_documents"]
  else if intent = "variance_analysis" then ["smart_retrieve_variance"]
  else if intent = "data_management" then ["copy_data"]
  else if intent = "substitution_variables" then ["get_substitution_variables"]
  else ["get_application_info"]

/-- `tools_to_use = suggested_tools or self._infer_tools_from_intent(..)`
filtered to availability (a `None` or empty suggestion list is falsy). -/
def dynamicTools (intent : String) (available : List String)
    (suggested : Option (List String)) : List String :=
  let tools0 := match suggested with
    | some l => if l.isEmpty then inferTools intent else l
    | none => inferTools intent
  tools0.filter fun t => available.contains t

/-- `_dynamic_plan`: chain up to three available tools strictly
sequentially (`parallel_group = index`, each step depending on the
previous one). -/
def dynamicPlan (intent : String) (entities : List (String × String))
    (available : List String) (suggested : Option (List String)) : PPlan :=
  let tools := (dynamicTools intent available suggested).take 3
  let steps := (tools.enum.foldl
    (fun (acc : List PStep) it =>
      let st : PStep :=
        { id := acc.length + 1, tool_name := it.2
        , parameters := filterParamsForTool it.2 entities
        , depends_on := match acc.getLast? with
            | some prev => [prev.id]
            | none => []
        , description := "Execute " ++ it.2
        , parallel_group := it.1, optional := false }
      acc ++ [st])
    [])
  let steps := if steps.isEmpty then fallbackSteps available else steps
  { steps := steps, name := "Dynamic Execution Plan"
  , description := "Generated plan for intent: " ++ intent
  , estimated_duration := steps.foldl (fun d s => fAdd d (durationOf s.tool_name)) fZ }

/-- `create_plan`: the pattern strategy, else the dynamic strategy. -/
def createPlan (intent : String) (entities : List (String × String))
    (available : List String) (subIntent : Option String)
    (suggested : Option (List String)) (userQuery : Option String) : PPlan :=
  match matchPattern intent entities subIntent userQuery with
  | some pat => buildFromPattern pat entities available
  | none => dynamicPlan intent entities available suggested

/-! ### Orchestrator embedding (`orchestrator.py`)

The tool executor is an external collaborator (§6 of the spec): a step
result is abstracted as its inspected `status` string, and executing a
step is an arbitrary function `ex : PStep → StepRes`. -/

/-- A step result, reduced to the only field the orchestrator's control
flow inspects. -/
structure StepRes where
  status : String
deriving DecidableEq, Repr

/-- `success=all(r.get("status") == "success" for r in results)`. -/
def successOf (rs : List StepRes) : Bool :=
  rs.all fun r => r.status == "success"

/-- First-occurrence-preserving key set, as `dict.setdefault` builds the
group dictionary. -/
def dedupKeep (l : List Nat) : List Nat :=
  l.foldl (fun acc k => if acc.contains k then acc else acc ++ [k]) []

/-- Ascending insertion of one key. -/
def insAsc (k : Nat) : List Nat → List Nat
  | [] => [k]
  | x :: xs => if k ≤ x then k :: x :: xs else x :: insAsc k xs

/-- `sorted(groups.keys())`. -/
def sortAsc (l : List Nat) : List Nat :=
  l.foldl (fun acc k => insAsc k acc) []

/-- Sequential execution within one group: append each result, stopping
after a result with status `"error"` on a non-optional step. -/
def seqRun (ex : PStep → StepRes) : List PStep → List StepRes
  | [] => []
  | s :: rest =>
    let r := ex s
    if r.status == "error" && !s.optional then [r]
    else r :: seqRun ex rest

/-- The group-level halting test of `_execute_plan`:
`results and results[-1]["status"] == "error" and not groups[gid][-1].optional`. -/
def groupHalt (acc : List StepRes) (g : List PStep) : Bool :=
  match acc.getLast?, g.getLast? with
  | some r, some s => r.status == "error" && !s.optional
  | _, _ => false

/-- Execute the groups for the given sorted key list, accumulating
results and stopping when the halting test fires. -/
def executeGroups (par : Bool) (ex : PStep → StepRes) (steps : List PStep) :
    List Nat → List StepRes → List StepRes
  | [], acc => acc
  | k :: ks, acc =>
    let g := steps.filter fun s => s.parallel_group == k
    let acc2 := if par && g.length > 1 then acc ++ g.map ex else acc ++ seqRun ex g
    if groupHalt acc2 g then acc2 else executeGroups par ex steps ks acc2

/-- `_execute_plan`: group by `parallel_group`, execute groups in
ascending order (concurrently inside a group of more than one step when
parallel execution is enabled — `asyncio.gather` preserves order — else
sequentially), halting on `groupHalt`. -/
def executePlan (par : Bool) (ex : PStep → StepRes) (steps : List PStep) : List StepRes :=
  executeGroups par ex steps (sortAsc (dedupKeep (steps.map fun s => s.parallel_group))) []

/-- The static defaults of `_execute_step`. -/
def stepDefaults : List (String × String) :=
  [("entity", "E501"), ("version", "Final")]

/-- The context-merge of `_execute_step`: for each suggested `(k, v)`,
set `params[k] = v` when the parameter is missing or falsy, is a
`"%"`-placeholder, or `k` is `account`/`entity` with `v` not the static
default. -/
def mergeStepParams (params suggested : List (String × String)) : List (String × String) :=
  suggested.foldl
    (fun ps kv =>
      let k := kv.1
      let v := kv.2
      let isPlaceholder := match ps.lookup k with
        | some w => prefixCS "%".toList w.toList
        | none => false
      let isMissing := match ps.lookup k with
        | some w => w == ""
        | none => true
      let isDefault := match stepDefaults.lookup k with
        | some d => v == d
        | none => false
      if isMissing || isPlaceholder || ((k == "account" || k == "entity") && !isDefault)
      then setKey ps k v else ps)
    params

/-- The orchestrator-level `Intent` for `_classify_intent`: after an
LLM merge the confidence is whatever float the collaborator supplied,
represented exactly. -/
structure OIntent where
  name : String
  confidence : Frac
  entities : List (String × String)
  suggested_tools : List String
  sub_intent : Option String
deriving DecidableEq, Repr

/-- `_classify_intent` after the rule-based pass: when the rule
confidence is below the configured threshold and the LLM collaborator
is available and answers (`llm = some l`; `none` covers unavailability
and exceptions), adopt name/confidence/tools and merge entities
(`intent.entities.update(llm.entities)`) only on strictly higher
confidence. -/
def classifyIntentMerge (threshold : Frac) (rule : OIntent) (llm : Option OIntent) : OIntent :=
  if fLt rule.confidence threshold then
    match llm with
    | some l =>
      if fLt rule.confidence l.confidence then
        { name := l.name, confidence := l.confidence
        , entities := updList rule.entities l.entities
        , suggested_tools := l.suggested_tools, sub_intent := rule.sub_intent }
      else rule
    | none => rule
  else rule

/-! ### Interpretation of the exact fractions and scores over `ℝ`

These two interpretation functions give the real value denoted by the
exact representations (the source computes them as IEEE floats); they
exist only to state theorems and are therefore the only noncomputable
definitions of the development — every embedded piece of code stays
executable. -/

/-- The real number a `Frac` denotes. -/
noncomputable def fVal (f : Frac) : ℝ := (f.num : ℝ) / (f.den : ℝ)

/-- The real number a `ScoreRep` denotes:
`0.50·min(1, sqrt(patNum/patDen)) + 0.30·kw + 0.20·ent`
(`patFracF` already encodes the empty-pattern guard, and division by
zero is zero in both conventions). -/
noncomputable def scoreReal (s : ScoreRep) : ℝ :=
  1 / 2 * min 1 (Real.sqrt (fVal (patFracF s))) + 3 / 10 * fVal s.kw + 1 / 5 * fVal s.ent

/-- Well-formedness of a produced score representation: the pattern
fraction is at most one and the keyword/entity parts are `[0,1]` values
over positive denominators. -/
def ScoreWF (s : ScoreRep) : Prop :=
  s.patNum ≤ s.patDen ∧
  0 < s.kw.den ∧ 0 ≤ fVal s.kw ∧ fVal s.kw ≤ 1 ∧
  0 < s.ent.den ∧ 0 ≤ fVal s.ent ∧ fVal s.ent ≤ 1

/-- Every id in a step's `depends_on` is the id of a step occurring
strictly earlier in the list. -/
def depsBackward (steps : List PStep) : Prop :=
  ∀ i, (h : i < steps.length) → ∀ d ∈ steps[i].depends_on,
    d ∈ (steps.take i).map fun s => s.id

/-! ## Theorems

### Real-valued semantics of the exact fraction arithmetic -/

theorem fVal_fZ : fVal fZ = 0 := by
  simp [fVal, fZ]

theorem fVal_fOne : fVal fOne = 1 := by
  simp [fVal, fOne]

theorem fAdd_den (a b : Frac) : (fAdd a b).den = a.den * b.den := rfl

theorem fSub_den (a b : Frac) : (fSub a b).den = a.den * b.den := rfl

theorem fMul_den (a b : Frac) : (fMul a b).den = a.den * b.den := rfl

theorem fVal_fAdd (a b : Frac) (ha : a.den ≠ 0) (hb : b.den ≠ 0) :
    fVal (fAdd a b) = fVal a + fVal b := by
  have ha' : (a.den : ℝ) ≠ 0 := Int.cast_ne_zero.mpr ha
  have hb' : (b.den : ℝ) ≠ 0 := Int.cast_ne_zero.mpr hb
  unfold fVal fAdd
  push_cast
  field_simp
  try ring

theorem fVal_fSub (a b : Frac) (ha : a.den ≠ 0) (hb : b.den ≠ 0) :
    fVal (fSub a b) = fVal a - fVal b := by
  have ha' : (a.den : ℝ) ≠ 0 := Int.cast_ne_zero.mpr ha
  have hb' : (b.den : ℝ) ≠ 0 := Int.cast_ne_zero.mpr hb
  unfold fVal fSub
  push_cast
  field_simp
  try ring

theorem fVal_fMul (a b : Frac) : fVal (fMul a b) = fVal a * fVal b := by
  unfold fVal fMul
  push_cast
  rw [div_mul_div_comm]

theorem fLe_iff (a b : Frac) (ha : 0 < a.den) (hb : 0 < b.den) :
    fLe a b = true ↔ fVal a ≤ fVal b := by
  have ha' : (0 : ℝ) < (a.den : ℝ) := by exact_mod_cast ha
  have hb' : (0 : ℝ) < (b.den : ℝ) := by exact_mod_cast hb
  unfold fLe fVal
  rw [decide_eq_true_iff, div_le_div_iff₀ ha' hb']
  constructor
  · intro h
    exact_mod_cast h
  · intro h
    exact_mod_cast h

theorem fLt_iff (a b : Frac) (ha : 0 < a.den) (hb : 0 < b.den) :
    fLt a b = true ↔ fVal a < fVal b := by
  have ha' : (0 : ℝ) < (a.den : ℝ) := by exact_mod_cast ha
  have hb' : (0 : ℝ) < (b.den : ℝ) := by exact_mod_cast hb
  unfold fLt fVal
  rw [decide_eq_true_iff, div_lt_div_iff₀ ha' hb']
  constructor
  · intro h
    exact_mod_cast h
  · intro h
    exact_mod_cast h

theorem patFrac_den_pos (s : ScoreRep) : 0 < (patFracF s).den := by
  unfold patFracF
  split
  · exact Int.zero_lt_one
  · rename_i h
    simpa using Nat.pos_of_ne_zero h

theorem patFrac_val_nonneg (s : ScoreRep) : 0 ≤ fVal (patFracF s) := by
  unfold patFracF fVal
  split
  · simp [fZ]
  · apply div_nonneg
    · positivity
    · positivity

theorem patFrac_val_le_one (s : ScoreRep) (hp : s.patNum ≤ s.patDen) :
    fVal (patFracF s) ≤ 1 := by
  unfold patFracF fVal
  split
  · simp [fZ]
  · rename_i h
    have hd : (0 : ℝ) < ((s.patDen : Int) : ℝ) := by
      have := Nat.pos_of_ne_zero h
      exact_mod_cast this
    rw [div_le_one hd]
    show ((s.patNum : Int) : ℝ) ≤ ((s.patDen : Int) : ℝ)
    exact_mod_cast hp

theorem restF_den_pos (s : ScoreRep) (hk : 0 < s.kw.den) (he : 0 < s.ent.den) :
    0 < (restF s).den := by
  have h1 : (0 : Int) < 10 * s.kw.den := by linarith
  have h2 : (0 : Int) < 5 * s.ent.den := by linarith
  show (0 : Int) < 10 * s.kw.den * (5 * s.ent.den)
  exact mul_pos h1 h2

theorem restF_val (s : ScoreRep) (hk : 0 < s.kw.den) (he : 0 < s.ent.den) :
    fVal (restF s) = 3 / 10 * fVal s.kw + 1 / 5 * fVal s.ent := by
  have h1 : (fMul ⟨3, 10⟩ s.kw).den ≠ 0 := by
    show (10 : Int) * s.kw.den ≠ 0
    intro h
    nlinarith
  have h2 : (fMul ⟨1, 5⟩ s.ent).den ≠ 0 := by
    show (5 : Int) * s.ent.den ≠ 0
    intro h
    nlinarith
  rw [restF, fVal_fAdd _ _ h1 h2, fVal_fMul, fVal_fMul]
  norm_num [fVal]

theorem fVal_two : fVal ⟨2, 1⟩ = 2 := by norm_num [fVal]

theorem fVal_four : fVal ⟨4, 1⟩ = 4 := by norm_num [fVal]

/-- Comparison of `√qb + t` against `√qa` by squaring, nonnegative
shift. -/
theorem sqrt_gt_iff_pos (qa qb t : ℝ) (hqa0 : 0 ≤ qa) (hqb0 : 0 ≤ qb) (ht : 0 ≤ t) :
    (Real.sqrt qb + t < Real.sqrt qa ↔
      (0 < qa - qb - t ^ 2 ∧ 4 * t ^ 2 * qb < (qa - qb - t ^ 2) ^ 2)) := by
  set A : ℝ := Real.sqrt qa with hA
  set B : ℝ := Real.sqrt qb with hB
  have hA2 : A ^ 2 = qa := Real.sq_sqrt hqa0
  have hB2 : B ^ 2 = qb := Real.sq_sqrt hqb0
  have hA0 : 0 ≤ A := Real.sqrt_nonneg _
  have hB0 : 0 ≤ B := Real.sqrt_nonneg _
  have h2tb : 0 ≤ 2 * t * B := by nlinarith
  constructor
  · intro h
    have hBt0 : 0 ≤ B + t := by linarith
    have hsq : (B + t) ^ 2 < A ^ 2 := by nlinarith
    have hV : 2 * t * B < qa - qb - t ^ 2 := by nlinarith
    constructor
    · linarith
    · nlinarith
  · rintro ⟨hV, hVsq⟩
    have hkey : 2 * t * B < qa - qb - t ^ 2 := by
      by_contra hc
      push_neg at hc
      have h1 : (0:ℝ) ≤ 2 * t * B - (qa - qb - t ^ 2) := by linarith
      have h2 : (0:ℝ) ≤ 2 * t * B + (qa - qb - t ^ 2) := by linarith
      nlinarith [mul_nonneg h1 h2]
    have hsq : (B + t) ^ 2 < A ^ 2 := by nlinarith
    by_contra hc
    push_neg at hc
    have : A ^ 2 ≤ (B + t) ^ 2 := by nlinarith
    linarith

/-- Comparison of `√qb + t` against `√qa` by squaring, negative
shift. -/
theorem sqrt_gt_iff_neg (qa qb t : ℝ) (hqa0 : 0 ≤ qa) (hqb0 : 0 ≤ qb) (ht : t < 0) :
    (Real.sqrt qb + t < Real.sqrt qa ↔
      (qb - qa - t ^ 2 < 0 ∨ (qb - qa - t ^ 2) ^ 2 < 4 * t ^ 2 * qa)) := by
  set A : ℝ := Real.sqrt qa with hA
  set B : ℝ := Real.sqrt qb with hB
  have hA2 : A ^ 2 = qa := Real.sq_sqrt hqa0
  have hB2 : B ^ 2 = qb := Real.sq_sqrt hqb0
  have hA0 : 0 ≤ A := Real.sqrt_nonneg _
  have hB0 : 0 ≤ B := Real.sqrt_nonneg _
  have hAt : 0 < A - t := by linarith
  have h2ta : 0 ≤ -2 * t * A := by nlinarith
  constructor
  · intro h
    have hB' : B < A - t := by linarith
    have hsq : B ^ 2 < (A - t) ^ 2 := by nlinarith
    by_cases hW : qb - qa - t ^ 2 < 0
    · exact Or.inl hW
    · right
      push_neg at hW
      have hWt : qb - qa - t ^ 2 < -2 * t * A := by nlinarith
      nlinarith [mul_self_lt_mul_self hW hWt]
  · intro h1
    have hkey : B ^ 2 < (A - t) ^ 2 := by
      rcases h1 with hW | hW
      · nlinarith
      · have hlt : qb - qa - t ^ 2 < -2 * t * A := by
          by_contra hc
          push_neg at hc
          have h2 : (0:ℝ) ≤ qb - qa - t ^ 2 := le_trans h2ta hc
          nlinarith [mul_self_le_mul_self h2ta hc]
        nlinarith
    have : B < A - t := by
      by_contra hc
      push_neg at hc
      nlinarith [mul_self_le_mul_self (by linarith : (0:ℝ) ≤ A - t) hc]
    linarith

/-- The exact comparison used for the argmax agrees with the real
ordering of the denoted scores on well-formed representations: the
embedding's `gtScore a b` decides exactly `score(b) < score(a)`. -/
theorem gtScore_iff_real (a b : ScoreRep)
    (hpa : a.patNum ≤ a.patDen) (hpb : b.patNum ≤ b.patDen)
    (hka : 0 < a.kw.den) (hea : 0 < a.ent.den)
    (hkb : 0 < b.kw.den) (heb : 0 < b.ent.den) :
    (gtScore a b = true ↔ scoreReal b < scoreReal a) := by
  have hra := restF_den_pos a hka hea
  have hrb := restF_den_pos b hkb heb
  have hqa := patFrac_den_pos a
  have hqb := patFrac_den_pos b
  have hrane : (restF a).den ≠ 0 := fun h => by rw [h] at hra; exact lt_irrefl _ hra
  have hrbne : (restF b).den ≠ 0 := fun h => by rw [h] at hrb; exact lt_irrefl _ hrb
  have hqane : (patFracF a).den ≠ 0 := fun h => by rw [h] at hqa; exact lt_irrefl _ hqa
  have hqbne : (patFracF b).den ≠ 0 := fun h => by rw [h] at hqb; exact lt_irrefl _ hqb
  set tF : Frac := fMul ⟨2, 1⟩ (fSub (restF b) (restF a)) with htF
  set vF : Frac := fSub (fSub (patFracF a) (patFracF b)) (fMul tF tF) with hvF
  set wF : Frac := fSub (fSub (patFracF b) (patFracF a)) (fMul tF tF) with hwF
  have htden : 0 < tF.den := by
    rw [htF]
    show (0 : Int) < 1 * ((restF b).den * (restF a).den)
    have := mul_pos hrb hra
    linarith
  have htdne : tF.den ≠ 0 := fun h => by rw [h] at htden; exact lt_irrefl _ htden
  have hsubne : (fSub (patFracF a) (patFracF b)).den ≠ 0 := by
    rw [fSub_den]
    exact mul_ne_zero hqane hqbne
  have hsubne' : (fSub (patFracF b) (patFracF a)).den ≠ 0 := by
    rw [fSub_den]
    exact mul_ne_zero hqbne hqane
  have htfne : (fMul tF tF).den ≠ 0 := by
    rw [fMul_den]
    exact mul_ne_zero htdne htdne
  have hvden : 0 < vF.den := by
    rw [hvF, fSub_den, fSub_den, fMul_den]
    exact mul_pos (mul_pos hqa hqb) (mul_pos htden htden)
  have hwden : 0 < wF.den := by
    rw [hwF, fSub_den, fSub_den, fMul_den]
    exact mul_pos (mul_pos hqb hqa) (mul_pos htden htden)
  have htval : fVal tF = 2 * (fVal (restF b) - fVal (restF a)) := by
    rw [htF, fVal_fMul, fVal_fSub _ _ hrbne hrane, fVal_two]
  have hvval : fVal vF = fVal (patFracF a) - fVal (patFracF b) - fVal tF ^ 2 := by
    rw [hvF, fVal_fSub _ _ hsubne htfne, fVal_fSub _ _ hqane hqbne, fVal_fMul]
    ring
  have hwval : fVal wF = fVal (patFracF b) - fVal (patFracF a) - fVal tF ^ 2 := by
    rw [hwF, fVal_fSub _ _ hsubne' htfne, fVal_fSub _ _ hqbne hqane, fVal_fMul]
    ring
  have h4val : fVal (fMul (fMul ⟨4, 1⟩ (fMul tF tF)) (patFracF b)) =
      4 * fVal tF ^ 2 * fVal (patFracF b) := by
    rw [fVal_fMul, fVal_fMul, fVal_fMul, fVal_four]
    ring
  have h4val' : fVal (fMul (fMul ⟨4, 1⟩ (fMul tF tF)) (patFracF a)) =
      4 * fVal tF ^ 2 * fVal (patFracF a) := by
    rw [fVal_fMul, fVal_fMul, fVal_fMul, fVal_four]
    ring
  have hvv : fVal (fMul vF vF) = fVal vF ^ 2 := by rw [fVal_fMul]; ring
  have hww : fVal (fMul wF wF) = fVal wF ^ 2 := by rw [fVal_fMul]; ring
  have h4den : 0 < (fMul (fMul ⟨4, 1⟩ (fMul tF tF)) (patFracF b)).den := by
    rw [fMul_den, fMul_den, fMul_den]
    show 0 < 1 * (tF.den * tF.den) * (patFracF b).den
    have := mul_pos (mul_pos htden htden) hqb
    linarith
  have h4den' : 0 < (fMul (fMul ⟨4, 1⟩ (fMul tF tF)) (patFracF a)).den := by
    rw [fMul_den, fMul_den, fMul_den]
    show 0 < 1 * (tF.den * tF.den) * (patFracF a).den
    have := mul_pos (mul_pos htden htden) hqa
    linarith
  have hvvden : 0 < (fMul vF vF).den := by rw [fMul_den]; exact mul_pos hvden hvden
  have hwwden : 0 < (fMul wF wF).den := by rw [fMul_den]; exact mul_pos hwden hwden
  have hzden : (0 : Int) < fZ.den := Int.zero_lt_one
  have hscA : scoreReal a =
      1 / 2 * Real.sqrt (fVal (patFracF a)) + fVal (restF a) := by
    rw [scoreReal, restF_val a hka hea,
        min_eq_right (Real.sqrt_le_one.mpr (patFrac_val_le_one a hpa))]
    ring
  have hscB : scoreReal b =
      1 / 2 * Real.sqrt (fVal (patFracF b)) + fVal (restF b) := by
    rw [scoreReal, restF_val b hkb heb,
        min_eq_right (Real.sqrt_le_one.mpr (patFrac_val_le_one b hpb))]
    ring
  have hiffR : (scoreReal b < scoreReal a) ↔
      (Real.sqrt (fVal (patFracF b)) + fVal tF < Real.sqrt (fVal (patFracF a))) := by
    rw [hscA, hscB, htval]
    constructor
    · intro h
      linarith
    · intro h
      linarith
  have hgt : gtScore a b =
      (if fLe fZ tF = true then
        fLt fZ vF && fLt (fMul (fMul ⟨4, 1⟩ (fMul tF tF)) (patFracF b)) (fMul vF vF)
      else
        fLt wF fZ || fLt (fMul wF wF) (fMul (fMul ⟨4, 1⟩ (fMul tF tF)) (patFracF a))) := rfl
  rw [hgt, hiffR]
  by_cases hT : fLe fZ tF = true
  · have ht0 : 0 ≤ fVal tF := by
      have := (fLe_iff fZ tF hzden htden).mp hT
      rwa [fVal_fZ] at this
    simp only [hT, if_true, Bool.and_eq_true]
    rw [fLt_iff fZ vF hzden hvden, fLt_iff _ _ h4den hvvden, fVal_fZ, h4val, hvv,
        hvval, htval]
    rw [sqrt_gt_iff_pos _ _ _ (patFrac_val_nonneg a) (patFrac_val_nonneg b)
        (by rw [htval] at ht0; exact ht0)]
  · have ht0 : fVal tF < 0 := by
      have hc : ¬ (fVal fZ ≤ fVal tF) := fun hc => hT ((fLe_iff fZ tF hzden htden).mpr hc)
      rw [fVal_fZ] at hc
      exact lt_of_not_le hc
    simp only [hT, Bool.false_eq_true, if_false, Bool.or_eq_true]
    rw [fLt_iff wF fZ hwden hzden, fLt_iff _ _ hwwden h4den', fVal_fZ, h4val', hww,
        hwval, htval]
    rw [sqrt_gt_iff_neg _ _ _ (patFrac_val_nonneg a) (patFrac_val_nonneg b)
        (by rw [htval] at ht0; exact ht0)]

/-! ### Well-formedness of produced scores (for the `[0,1]` bound) -/

theorem fMin_den_pos (a b : Frac) (ha : 0 < a.den) (hb : 0 < b.den) : 0 < (fMin a b).den := by
  unfold fMin
  split <;> assumption

theorem fMax_den_pos (a b : Frac) (ha : 0 < a.den) (hb : 0 < b.den) : 0 < (fMax a b).den := by
  unfold fMax
  split <;> assumption

theorem fMin_val_le_left (a b : Frac) (ha : 0 < a.den) (hb : 0 < b.den) :
    fVal (fMin a b) ≤ fVal a := by
  unfold fMin
  split
  · exact le_refl _
  · rename_i h
    have hnot : ¬ (fVal a ≤ fVal b) := by
      intro hc
      rw [(fLe_iff a b ha hb).mpr hc] at h
      exact h rfl
    linarith [lt_of_not_le hnot]

theorem fMax_val_ge_left (a b : Frac) (ha : 0 < a.den) (hb : 0 < b.den) :
    fVal a ≤ fVal (fMax a b) := by
  unfold fMax
  split
  · rename_i h
    have := (fLt_iff a b ha hb).mp h
    linarith
  · exact le_refl _

theorem fMax_val_le (a b : Frac) (c : ℝ) (hva : fVal a ≤ c) (hvb : fVal b ≤ c) :
    fVal (fMax a b) ≤ c := by
  unfold fMax
  split <;> assumption

theorem kwScoreF_wf (q : List Char) (kws negs : List String) :
    0 < (kwScoreF q kws negs).den ∧ 0 ≤ fVal (kwScoreF q kws negs) ∧
      fVal (kwScoreF q kws negs) ≤ 1 := by
  have hrfl : kwScoreF q kws negs =
      (if kws.isEmpty then fZ else
        fMax fZ (fSub
          (fMin fOne ⟨(((kws.filter fun kw => containsSub (pyLower kw.toList) q).length : Int)),
            (kws.length : Int)⟩)
          (fMin ⟨1, 2⟩ (fMul ⟨(((negs.filter fun kw =>
            containsSub (pyLower kw.toList) q).length : Int)), 1⟩ ⟨3, 20⟩)))) := rfl
  by_cases he : kws.isEmpty
  · rw [hrfl, if_pos he]
    exact ⟨Int.zero_lt_one, le_of_eq fVal_fZ.symm, by rw [fVal_fZ]; norm_num⟩
  · rw [hrfl, if_neg he]
    set pos : Int := ((kws.filter fun kw => containsSub (pyLower kw.toList) q).length : Int)
      with hpos
    set neg : Int := ((negs.filter fun kw => containsSub (pyLower kw.toList) q).length : Int)
      with hneg
    have hlen : (0 : Int) < (kws.length : Int) := by
      have h1 : kws ≠ [] := by
        intro hc
        rw [hc] at he
        exact he rfl
      have h2 : 0 < kws.length := List.length_pos.mpr h1
      exact_mod_cast h2
    have hneg0 : (0 : Int) ≤ neg := by rw [hneg]; positivity
    set P : Frac := fMin fOne ⟨pos, (kws.length : Int)⟩ with hP
    set N : Frac := fMin ⟨1, 2⟩ (fMul ⟨neg, 1⟩ ⟨3, 20⟩) with hN
    have hPden : 0 < P.den := fMin_den_pos _ _ Int.zero_lt_one hlen
    have hNden : 0 < N.den := by
      apply fMin_den_pos
      · norm_num
      · show (0 : Int) < 1 * 20
        norm_num
    have hPle : fVal P ≤ 1 := by
      have := fMin_val_le_left fOne ⟨pos, (kws.length : Int)⟩ Int.zero_lt_one hlen
      rw [fVal_fOne] at this
      exact this
    have hNge : 0 ≤ fVal N := by
      have h12 : (0:ℝ) ≤ fVal ⟨1, 2⟩ := by norm_num [fVal]
      have hmm : (0:ℝ) ≤ fVal (fMul ⟨neg, 1⟩ ⟨3, 20⟩) := by
        rw [fVal_fMul]
        have h1 : (0:ℝ) ≤ fVal ⟨neg, 1⟩ := by
          unfold fVal
          have : (0:ℝ) ≤ (neg : ℝ) := by exact_mod_cast hneg0
          simpa using this
        have h2 : (0:ℝ) ≤ fVal ⟨3, 20⟩ := by norm_num [fVal]
        exact mul_nonneg h1 h2
      rw [hN]
      unfold fMin
      split <;> assumption
    have hXden : 0 < (fSub P N).den := by
      rw [fSub_den]
      exact mul_pos hPden hNden
    have hXval : fVal (fSub P N) = fVal P - fVal N :=
      fVal_fSub P N (fun h => by rw [h] at hPden; exact lt_irrefl _ hPden)
        (fun h => by rw [h] at hNden; exact lt_irrefl _ hNden)
    refine ⟨fMax_den_pos _ _ Int.zero_lt_one hXden, ?_, ?_⟩
    · have := fMax_val_ge_left fZ (fSub P N) Int.zero_lt_one hXden
      rw [fVal_fZ] at this
      exact this
    · apply fMax_val_le
      · rw [fVal_fZ]
        norm_num
      · rw [hXval]
        linarith

theorem entRelF_wf (entities : List (String × String)) (ty : IntentTy) :
    0 < (entRelF entities ty).den ∧ 0 ≤ fVal (entRelF entities ty) ∧
      fVal (entRelF entities ty) ≤ 1 := by
  have hrfl : entRelF entities ty =
      (if (relevanceOf ty).isEmpty then fZ else
        ⟨(((relevanceOf ty).filter fun et => (entities.lookup et).isSome).length : Int),
          ((relevanceOf ty).length : Int)⟩) := rfl
  by_cases he : (relevanceOf ty).isEmpty
  · rw [hrfl, if_pos he]
    exact ⟨Int.zero_lt_one, le_of_eq fVal_fZ.symm, by rw [fVal_fZ]; norm_num⟩
  · rw [hrfl, if_neg he]
    have hlen : (0 : Int) < ((relevanceOf ty).length : Int) := by
      have h1 : relevanceOf ty ≠ [] := by
        intro hc
        rw [hc] at he
        exact he rfl
      have h2 : 0 < (relevanceOf ty).length := List.length_pos.mpr h1
      exact_mod_cast h2
    have hlenR : (0 : ℝ) < (((relevanceOf ty).length : Int) : ℝ) := by exact_mod_cast hlen
    refine ⟨hlen, ?_, ?_⟩
    · unfold fVal
      apply div_nonneg _ (le_of_lt hlenR)
      positivity
    · unfold fVal
      rw [div_le_one hlenR]
      show (((((relevanceOf ty).filter
          fun et => (entities.lookup et).isSome).length : Int)) : ℝ) ≤
        (((relevanceOf ty).length : Int) : ℝ)
      have hle : ((relevanceOf ty).filter
          fun et => (entities.lookup et).isSome).length ≤ (relevanceOf ty).length :=
        List.length_filter_le _ _
      exact_mod_cast hle

theorem scoreIntents_wf (q : List Char) (ents : List (String × String)) :
    ∀ x ∈ scoreIntents q ents, ScoreWF x.2 := by
  intro x hx
  unfold scoreIntents at hx
  rcases List.mem_map.mp hx with ⟨c, hc, rfl⟩
  exact ⟨List.length_filter_le _ _,
    (kwScoreF_wf q c.keywords c.negKeywords).1,
    (kwScoreF_wf q c.keywords c.negKeywords).2.1,
    (kwScoreF_wf q c.keywords c.negKeywords).2.2,
    (entRelF_wf ents c.ty).1,
    (entRelF_wf ents c.ty).2.1,
    (entRelF_wf ents c.ty).2.2⟩

theorem scoreWF_bounds (s : ScoreRep) (h : ScoreWF s) :
    0 ≤ scoreReal s ∧ scoreReal s ≤ 1 := by
  obtain ⟨hp, hkd, hk0, hk1, hed, he0, he1⟩ := h
  have h1 : 0 ≤ min 1 (Real.sqrt (fVal (patFracF s))) :=
    le_min zero_le_one (Real.sqrt_nonneg _)
  have h2 : min 1 (Real.sqrt (fVal (patFracF s))) ≤ 1 := min_le_left _ _
  unfold scoreReal
  constructor
  · nlinarith
  · nlinarith

theorem foldl_best_mem (l : List (IntentTy × ScoreRep)) (acc : IntentTy × ScoreRep) :
    (l.foldl (fun best x => if gtScore x.2 best.2 then x else best) acc) = acc ∨
      (l.foldl (fun best x => if gtScore x.2 best.2 then x else best) acc) ∈ l := by
  induction l generalizing acc with
  | nil => exact Or.inl rfl
  | cons y ys ih =>
    simp only [List.foldl_cons]
    rcases ih (if gtScore y.2 acc.2 then y else acc) with h | h
    · rw [h]
      by_cases hg : gtScore y.2 acc.2 = true
      · simp only [hg, if_true]
        exact Or.inr (List.mem_cons_self _ _)
      · simp only [hg, if_false]
        exact Or.inl rfl
    · exact Or.inr (List.mem_cons_of_mem _ h)

theorem pyMax_mem (l : List (IntentTy × ScoreRep)) (hl : l ≠ []) : pyMaxScore l ∈ l := by
  cases l with
  | nil => exact absurd rfl hl
  | cons h t =>
    have hrw : pyMaxScore (h :: t) =
        t.foldl (fun best x => if gtScore x.2 best.2 then x else best) h := rfl
    rw [hrw]
    rcases foldl_best_mem t h with hm | hm
    · rw [hm]
      exact List.mem_cons_self _ _
    · exact List.mem_cons_of_mem _ hm

theorem scoreIntents_ne_nil (q : List Char) (e : List (String × String)) :
    scoreIntents q e ≠ [] := by
  intro hc
  have hlen : (scoreIntents q e).length = intentConfigs.length := by
    unfold scoreIntents
    exact List.length_map _ _
  rw [hc] at hlen
  have h8 : intentConfigs.length = 8 := rfl
  rw [h8] at hlen
  exact absurd hlen (by decide)

/-- C8: for every input string, including the empty string, the
confidence of the rule-based classification lies in the closed unit
interval (stated of the real value the exact representation denotes). -/
theorem c8_classify_confidence_in_unit_interval (q : String) :
    0 ≤ scoreReal (classifyQ q).confidence ∧ scoreReal (classifyQ q).confidence ≤ 1 := by
  have hconf : (classifyQ q).confidence =
      (pyMaxScore (scoreIntents (preprocess q.toList)
        (extractEntities (preprocess q.toList)))).2 := rfl
  rw [hconf]
  have hmem := pyMax_mem _ (scoreIntents_ne_nil (preprocess q.toList)
    (extractEntities (preprocess q.toList)))
  exact scoreWF_bounds _ (scoreIntents_wf _ _ _ hmem)

theorem intentConfigs_ty_tools :
    ∀ c ∈ intentConfigs, c.ty ≠ IntentTy.unknown ∧ toolsOf c.ty ≠ [] := by decide

/-- C2 (amended): classification is total (the embedding is a total
function) and, with no LLM collaborator (as the orchestrator constructs
the classifier), it never degrades to an `unknown` intent nor to an
empty tool list: the argmax category is always one of the configured
categories, whose tool lists are all non-empty; on the empty query it
is `data_retrieval` with an all-zero score. -/
theorem c2_amended_no_llm_degradation :
    (∀ q : String, (classifyQ q).intentTy ≠ IntentTy.unknown ∧
      (classifyQ q).suggested_tools ≠ []) ∧
    classifyQ "" =
      { name := "data_retrieval", intentTy := .data_retrieval
      , confidence := ⟨0, 5, fZ, ⟨0, 5⟩⟩, entities := []
      , suggested_tools := ["smart_retrieve", "smart_retrieve_revenue",
          "smart_retrieve_monthly", "export_data_slice"]
      , sub_intent := none } := by
  constructor
  · intro q
    have hmem := pyMax_mem _ (scoreIntents_ne_nil (preprocess q.toList)
      (extractEntities (preprocess q.toList)))
    unfold scoreIntents at hmem
    rcases List.mem_map.mp hmem with ⟨c, hc, heq⟩
    have hfacts := intentConfigs_ty_tools c hc
    have hty : (classifyQ q).intentTy =
        (pyMaxScore (intentConfigs.map fun c =>
          (c.ty,
           { patNum := (c.patterns.filter fun p =>
               reTest p (preprocess q.toList)).length
           , patDen := c.patterns.length
           , kw := kwScoreF (preprocess q.toList) c.keywords c.negKeywords
           , ent := entRelF (extractEntities (preprocess q.toList)) c.ty }))).1 := rfl
    have hty2 : (classifyQ q).intentTy = c.ty := by
      rw [hty, ← heq]
    have htools : (classifyQ q).suggested_tools = toolsOf (classifyQ q).intentTy := rfl
    constructor
    · rw [hty2]
      exact hfacts.1
    · rw [htools, hty2]
      exact hfacts.2
  · decide

theorem scoreReal_zero_shape (pd : Nat) (kd ed : Int) :
    scoreReal ⟨0, pd, ⟨0, kd⟩, ⟨0, ed⟩⟩ = 0 := by
  have hq : fVal (patFracF ⟨0, pd, ⟨0, kd⟩, ⟨0, ed⟩⟩) = 0 := by
    unfold patFracF
    split
    · exact fVal_fZ
    · show fVal ⟨((0 : Nat) : Int), (pd : Int)⟩ = 0
      unfold fVal
      norm_num
  unfold scoreReal
  rw [hq]
  have hk : fVal (⟨0, kd⟩ : Frac) = 0 := by
    unfold fVal
    norm_num
  have he : fVal (⟨0, ed⟩ : Frac) = 0 := by
    unfold fVal
    norm_num
  show 1 / 2 * min 1 (Real.sqrt 0) + 3 / 10 * fVal (⟨0, kd⟩ : Frac) +
      1 / 5 * fVal (⟨0, ed⟩ : Frac) = 0
  rw [hk, he, Real.sqrt_zero]
  norm_num

/-- C2 counterexample: the empty query is totally ambiguous — every
rule score denotes `0 < 0.3` — and with no LLM the classifier does NOT
return an `unknown` intent with empty suggested tools: it returns
`data_retrieval` with its four configured tools. -/
theorem c2_counterexample_empty_query :
    scoreIntents (preprocess "".toList) (extractEntities (preprocess "".toList)) =
      [ (.data_retrieval, ⟨0, 5, ⟨0, 1⟩, ⟨0, 5⟩⟩)
      , (.dimension_exploration, ⟨0, 4, ⟨0, 1⟩, ⟨0, 4⟩⟩)
      , (.business_rule, ⟨0, 2, ⟨0, 1⟩, ⟨0, 1⟩⟩)
      , (.job_management, ⟨0, 4, ⟨0, 1⟩, ⟨0, 1⟩⟩)
      , (.variance_analysis, ⟨0, 4, ⟨0, 1⟩, ⟨0, 4⟩⟩)
      , (.data_management, ⟨0, 3, ⟨0, 1⟩, ⟨0, 3⟩⟩)
      , (.substitution_variables, ⟨0, 3, ⟨0, 1⟩, ⟨0, 1⟩⟩)
      , (.document_management, ⟨0, 2, ⟨0, 1⟩, ⟨0, 1⟩⟩) ] ∧
    scoreReal ⟨0, 5, ⟨0, 1⟩, ⟨0, 5⟩⟩ < 3 / 10 ∧
    scoreReal ⟨0, 4, ⟨0, 1⟩, ⟨0, 4⟩⟩ < 3 / 10 ∧
    scoreReal ⟨0, 2, ⟨0, 1⟩, ⟨0, 1⟩⟩ < 3 / 10 ∧
    scoreReal ⟨0, 4, ⟨0, 1⟩, ⟨0, 1⟩⟩ < 3 / 10 ∧
    scoreReal ⟨0, 3, ⟨0, 1⟩, ⟨0, 3⟩⟩ < 3 / 10 ∧
    scoreReal ⟨0, 3, ⟨0, 1⟩, ⟨0, 1⟩⟩ < 3 / 10 ∧
    (classifyQ "").intentTy = IntentTy.data_retrieval ∧
    (classifyQ "").intentTy ≠ IntentTy.unknown ∧
    (classifyQ "").suggested_tools =
      ["smart_retrieve", "smart_retrieve_revenue", "smart_retrieve_monthly",
       "export_data_slice"] := by
  refine ⟨by decide, ?_, ?_, ?_, ?_, ?_, ?_, by decide, by decide, by decide⟩ <;>
    (rw [scoreReal_zero_shape]; norm_num)

/-- C3 (amended): on the Chicago/FY25 query the classifier extracts
`year = "FY25"` (alias-resolved) and `account = "400000"` (from the
alias `"total revenue" → "400000"`), extracts no `entity` (no alias
maps "chicago"), and classifies it as data-retrieval with confidence at
least `0.3`. -/
theorem c3_amended_chicago_query :
    (classifyQ "What is total revenue for Chicago in FY25").entities =
      [("year", "FY25"), ("account", "400000")] ∧
    (classifyQ "What is total revenue for Chicago in FY25").entities.lookup "entity" =
      none ∧
    (classifyQ "What is total revenue for Chicago in FY25").intentTy =
      IntentTy.data_retrieval ∧
    (3 : ℝ) / 10 ≤
      scoreReal (classifyQ "What is total revenue for Chicago in FY25").confidence := by
  refine ⟨by decide, by decide, by decide, ?_⟩
  have hc : (classifyQ "What is total revenue for Chicago in FY25").confidence =
      ⟨3, 5, ⟨20, 300⟩, ⟨2, 5⟩⟩ := by decide
  rw [hc]
  have hpf : patFracF ⟨3, 5, ⟨20, 300⟩, ⟨2, 5⟩⟩ = ⟨3, 5⟩ := rfl
  have hq : fVal (⟨3, 5⟩ : Frac) = 3 / 5 := by
    unfold fVal
    norm_num
  have hmin : min 1 (Real.sqrt (3 / 5)) = Real.sqrt (3 / 5) :=
    min_eq_right (Real.sqrt_le_one.mpr (by norm_num))
  have hsq : (2 : ℝ) / 5 ≤ Real.sqrt (3 / 5) := by
    rw [Real.le_sqrt (by norm_num) (by norm_num)]
    norm_num
  unfold scoreReal
  rw [hpf, hq, hmin]
  have hk : fVal (⟨20, 300⟩ : Frac) = 1 / 15 := by
    unfold fVal
    norm_num
  have he : fVal (⟨2, 5⟩ : Frac) = 2 / 5 := by
    unfold fVal
    norm_num
  rw [hk, he]
  linarith

/-- C3 counterexample: the claimed extracted entities — an `entity`
binding `"E501"` (and a `years` binding) — are absent: the classifier's
alias table has no entry for "chicago", so the extracted entities are
exactly `year` and `account`. -/
theorem c3_counterexample_no_e501 :
    ("entity", "E501") ∉ (classifyQ "What is total revenue for Chicago in FY25").entities ∧
    (classifyQ "What is total revenue for Chicago in FY25").entities.lookup "entity" =
      none ∧
    (classifyQ "What is total revenue for Chicago in FY25").entities.lookup "years" =
      none := by
  refine ⟨by decide, by decide, by decide⟩

/-! ### Association-list lemmas (`dict` semantics) -/

theorem lookup_cons' {α : Type} (x : String × α) (l : List (String × α)) (k : String) :
    (x :: l).lookup k = if k == x.1 then some x.2 else l.lookup k := by
  cases x with
  | mk a b =>
    cases hb : (k == a) <;> simp [List.lookup, hb]

theorem lookup_append' {α : Type} (a b : List (String × α)) (k : String) :
    (a ++ b).lookup k =
      (match a.lookup k with
       | some v => some v
       | none => b.lookup k) := by
  induction a with
  | nil => simp
  | cons x xs ih =>
    rw [List.cons_append, lookup_cons', lookup_cons']
    by_cases h : (k == x.1) = true
    · simp [h]
    · simp only [h, if_false]
      exact ih

theorem lookup_none_of_keys {α : Type} (l : List (String × α)) (k : String)
    (h : ∀ kv ∈ l, kv.1 ≠ k) : l.lookup k = none := by
  induction l with
  | nil => rfl
  | cons x xs ih =>
    rw [lookup_cons']
    have hx : x.1 ≠ k := h x (List.mem_cons_self _ _)
    have hkx : (k == x.1) = false := beq_eq_false_iff_ne.mpr fun hc => hx hc.symm
    simp only [hkx, Bool.false_eq_true, if_false]
    exact ih fun kv hkv => h kv (List.mem_cons_of_mem _ hkv)

theorem lookup_map_set_self {α : Type} (d : List (String × α)) (k : String) (v : α)
    (h : (d.lookup k).isSome) :
    (d.map fun kv => if kv.1 = k then (k, v) else kv).lookup k = some v := by
  induction d with
  | nil => simp [List.lookup] at h
  | cons x xs ih =>
    rw [List.map_cons, lookup_cons']
    by_cases hk : k = x.1
    · have hinner : (if x.1 = k then (k, v) else x) = (k, v) := if_pos hk.symm
      rw [hinner]
      simp
    · have hinner : (if x.1 = k then (k, v) else x) = x := if_neg fun hc => hk hc.symm
      rw [hinner]
      have hkx : (k == x.1) = false := beq_eq_false_iff_ne.mpr hk
      simp only [hkx, Bool.false_eq_true, if_false]
      apply ih
      rw [lookup_cons', hkx] at h
      simpa using h

theorem lookup_map_set_ne {α : Type} (d : List (String × α)) (k k' : String) (v : α)
    (h : k ≠ k') :
    (d.map fun kv => if kv.1 = k' then (k', v) else kv).lookup k = d.lookup k := by
  induction d with
  | nil => rfl
  | cons x xs ih =>
    rw [List.map_cons, lookup_cons', lookup_cons']
    by_cases hx : x.1 = k'
    · have hinner : (if x.1 = k' then (k', v) else x) = (k', v) := if_pos hx
      rw [hinner]
      have h2 : (k == (k', v).1) = false := beq_eq_false_iff_ne.mpr h
      have h3 : (k == x.1) = false := by
        rw [hx]
        exact beq_eq_false_iff_ne.mpr h
      simp only [h2, h3, Bool.false_eq_true, if_false]
      exact ih
    · have hinner : (if x.1 = k' then (k', v) else x) = x := if_neg hx
      rw [hinner]
      by_cases hkx : (k == x.1) = true
      · simp [hkx]
      · simp only [hkx, if_false]
        exact ih

theorem lookup_setKey_self {α : Type} (d : List (String × α)) (k : String) (v : α) :
    (setKey d k v).lookup k = some v := by
  unfold setKey
  by_cases h : (d.lookup k).isSome
  · rw [if_pos h]
    exact lookup_map_set_self d k v h
  · rw [if_neg h]
    rw [lookup_append']
    have hnone : d.lookup k = none := by
      cases hd : d.lookup k
      · rfl
      · rw [hd] at h
        simp at h
    rw [hnone]
    simp [lookup_cons']

theorem lookup_setKey_ne {α : Type} (d : List (String × α)) (k k' : String) (v : α)
    (h : k ≠ k') : (setKey d k' v).lookup k = d.lookup k := by
  unfold setKey
  by_cases hp : (d.lookup k').isSome
  · rw [if_pos hp]
    exact lookup_map_set_ne d k k' v h
  · rw [if_neg hp]
    rw [lookup_append']
    cases hd : d.lookup k
    · rw [lookup_cons']
      have h2 : (k == k') = false := beq_eq_false_iff_ne.mpr h
      simp [h2]
    · rfl

theorem updList_cons {α : Type} (d : List (String × α)) (x : String × α)
    (ks : List (String × α)) :
    updList d (x :: ks) = updList (setKey d x.1 x.2) ks := rfl

/-- The value of a key after `d.update(ks)`: the last binding in `ks`
if any, else the old value. -/
theorem lookup_updList {α : Type} (ks : List (String × α)) (d : List (String × α))
    (k : String) :
    (updList d ks).lookup k =
      (match ks.reverse.lookup k with
       | some v => some v
       | none => d.lookup k) := by
  induction ks generalizing d with
  | nil => rfl
  | cons x xs ih =>
    rw [updList_cons, ih]
    rw [List.reverse_cons, lookup_append']
    cases hx : xs.reverse.lookup k
    · simp only []
      rw [lookup_cons']
      by_cases hk : k = x.1
      · have h2 : (k == x.1) = true := beq_iff_eq.mpr hk
        simp only [h2, if_true]
        rw [hk]
        exact lookup_setKey_self d x.1 x.2
      · have h2 : (k == x.1) = false := beq_eq_false_iff_ne.mpr hk
        simp only [h2, Bool.false_eq_true, if_false, List.lookup]
        exact lookup_setKey_ne d k x.1 x.2 hk
    · rfl

theorem lookup_opt1_skip (k k' : String) (v? : Option String)
    (rest : List (String × Option String)) (h : ¬ k = k') :
    ((opt1 k' v?) ++ rest).lookup k = rest.lookup k := by
  cases v?
  · rfl
  · rename_i s
    show ((k', some s) :: rest).lookup k = rest.lookup k
    rw [lookup_cons']
    simp [beq_eq_false_iff_ne.mpr h]

theorem lookup_optA_skip (k k' : String) (v : Option (Option String))
    (rest : List (String × Option String)) (h : ¬ k = k') :
    ((optA k' v) ++ rest).lookup k = rest.lookup k := by
  cases v
  · rfl
  · rename_i s
    show ((k', s) :: rest).lookup k = rest.lookup k
    rw [lookup_cons']
    simp [beq_eq_false_iff_ne.mpr h]

theorem lookup_opt1_head (k : String) (v? : Option String)
    (rest : List (String × Option String)) :
    ((opt1 k v?) ++ rest).lookup k =
      (match v? with
       | some s => some (some s)
       | none => rest.lookup k) := by
  cases v?
  · rfl
  · rename_i s
    show ((k, some s) :: rest).lookup k = some (some s)
    rw [lookup_cons']
    simp

theorem lookup_optA_head (k : String) (v : Option (Option String))
    (rest : List (String × Option String)) :
    ((optA k v) ++ rest).lookup k =
      (match v with
       | some x => some x
       | none => rest.lookup k) := by
  cases v
  · rfl
  · rename_i s
    show ((k, s) :: rest).lookup k = some s
    rw [lookup_cons']
    simp

theorem opt1_rev (k : String) (v : Option String) : (opt1 k v).reverse = opt1 k v := by
  cases v <;> rfl

theorem optA_rev (k : String) (v : Option (Option String)) : (optA k v).reverse = optA k v := by
  cases v <;> rfl

theorem uToList_rev (u : POVUpdate) :
    (uToList u).reverse =
      optA "account" u.account ++
      (opt1 "region" u.region ++
      (opt1 "future1" u.future1 ++
      (opt1 "cost_center" u.cost_center ++
      (opt1 "entity" u.entity ++
      (opt1 "currency" u.currency ++
      (opt1 "version" u.version ++
      (opt1 "scenario" u.scenario ++
      (opt1 "period" u.period ++
      (opt1 "years" u.years))))))))) := by
  unfold uToList
  simp [List.reverse_append, opt1_rev, optA_rev]

theorem uToList_rev_lookup_account (u : POVUpdate) :
    (uToList u).reverse.lookup "account" = u.account := by
  rw [uToList_rev]
  rw [lookup_optA_head]
  cases u.account with
  | some s => rfl
  | none =>
    rw [lookup_opt1_skip _ _ _ _ (by decide),
        lookup_opt1_skip _ _ _ _ (by decide),
        lookup_opt1_skip _ _ _ _ (by decide),
        lookup_opt1_skip _ _ _ _ (by decide),
        lookup_opt1_skip _ _ _ _ (by decide),
        lookup_opt1_skip _ _ _ _ (by decide),
        lookup_opt1_skip _ _ _ _ (by decide),
        lookup_opt1_skip _ _ _ _ (by decide)]
    cases u.years <;> simp [opt1, lookup_cons']

theorem uToList_rev_lookup_region (u : POVUpdate) :
    (uToList u).reverse.lookup "region" = u.region.map some := by
  rw [uToList_rev,
      lookup_optA_skip _ _ _ _ (by decide)]
  rw [lookup_opt1_head]
  cases u.region with
  | some s => rfl
  | none =>
    rw [lookup_opt1_skip _ _ _ _ (by decide),
        lookup_opt1_skip _ _ _ _ (by decide),
        lookup_opt1_skip _ _ _ _ (by decide),
        lookup_opt1_skip _ _ _ _ (by decide),
        lookup_opt1_skip _ _ _ _ (by decide),
        lookup_opt1_skip _ _ _ _ (by decide),
        lookup_opt1_skip _ _ _ _ (by decide)]
    cases u.years <;> simp [opt1, lookup_cons']

theorem uToList_rev_lookup_future1 (u : POVUpdate) :
    (uToList u).reverse.lookup "future1" = u.future1.map some := by
  rw [uToList_rev,
      lookup_optA_skip _ _ _ _ (by decide),
      lookup_opt1_skip _ _ _ _ (by decide)]
  rw [lookup_opt1_head]
  cases u.future1 with
  | some s => rfl
  | none =>
    rw [lookup_opt1_skip _ _ _ _ (by decide),
        lookup_opt1_skip _ _ _ _ (by decide),
        lookup_opt1_skip _ _ _ _ (by decide),
        lookup_opt1_skip _ _ _ _ (by decide),
        lookup_opt1_skip _ _ _ _ (by decide),
        lookup_opt1_skip _ _ _ _ (by decide)]
    cases u.years <;> simp [opt1, lookup_cons']

theorem uToList_rev_lookup_cost_center (u : POVUpdate) :
    (uToList u).reverse.lookup "cost_center" = u.cost_center.map some := by
  rw [uToList_rev,
      lookup_optA_skip _ _ _ _ (by decide),
      lookup_opt1_skip _ _ _ _ (by decide),
      lookup_opt1_skip _ _ _ _ (by decide)]
  rw [lookup_opt1_head]
  cases u.cost_center with
  | some s => rfl
  | none =>
    rw [lookup_opt1_skip _ _ _ _ (by decide),
        lookup_opt1_skip _ _ _ _ (by decide),
        lookup_opt1_skip _ _ _ _ (by decide),
        lookup_opt1_skip _ _ _ _ (by decide),
        lookup_opt1_skip _ _ _ _ (by decide)]
    cases u.years <;> simp [opt1, lookup_cons']

theorem uToList_rev_lookup_entity (u : POVUpdate) :
    (uToList u).reverse.lookup "entity" = u.entity.map some := by
  rw [uToList_rev,
      lookup_optA_skip _ _ _ _ (by decide),
      lookup_opt1_skip _ _ _ _ (by decide),
      lookup_opt1_skip _ _ _ _ (by decide),
      lookup_opt1_skip _ _ _ _ (by decide)]
  rw [lookup_opt1_head]
  cases u.entity with
  | some s => rfl
  | none =>
    rw [lookup_opt1_skip _ _ _ _ (by decide),
        lookup_opt1_skip _ _ _ _ (by decide),
        lookup_opt1_skip _ _ _ _ (by decide),
        lookup_opt1_skip _ _ _ _ (by decide)]
    cases u.years <;> simp [opt1, lookup_cons']

theorem uToList_rev_lookup_currency (u : POVUpdate) :
    (uToList u).reverse.lookup "currency" = u.currency.map some := by
  rw [uToList_rev,
      lookup_optA_skip _ _ _ _ (by decide),
      lookup_opt1_skip _ _ _ _ (by decide),
      lookup_opt1_skip _ _ _ _ (by decide),
      lookup_opt1_skip _ _ _ _ (by decide),
      lookup_opt1_skip _ _ _ _ (by decide)]
  rw [lookup_opt1_head]
  cases u.currency with
  | some s => rfl
  | none =>
    rw [lookup_opt1_skip _ _ _ _ (by decide),
        lookup_opt1_skip _ _ _ _ (by decide),
        lookup_opt1_skip _ _ _ _ (by decide)]
    cases u.years <;> simp [opt1, lookup_cons']

theorem uToList_rev_lookup_version (u : POVUpdate) :
    (uToList u).reverse.lookup "version" = u.version.map some := by
  rw [uToList_rev,
      lookup_optA_skip _ _ _ _ (by decide),
      lookup_opt1_skip _ _ _ _ (by decide),
      lookup_opt1_skip _ _ _ _ (by decide),
      lookup_opt1_skip _ _ _ _ (by decide),
      lookup_opt1_skip _ _ _ _ (by decide),
      lookup_opt1_skip _ _ _ _ (by decide)]
  rw [lookup_opt1_head]
  cases u.version with
  | some s => rfl
  | none =>
    rw [lookup_opt1_skip _ _ _ _ (by decide),
        lookup_opt1_skip _ _ _ _ (by decide)]
    cases u.years <;> simp [opt1, lookup_cons']

theorem uToList_rev_lookup_scenario (u : POVUpdate) :
    (uToList u).reverse.lookup "scenario" = u.scenario.map some := by
  rw [uToList_rev,
      lookup_optA_skip _ _ _ _ (by decide),
      lookup_opt1_skip _ _ _ _ (by decide),
      lookup_opt1_skip _ _ _ _ (by decide),
      lookup_opt1_skip _ _ _ _ (by decide),
      lookup_opt1_skip _ _ _ _ (by decide),
      lookup_opt1_skip _ _ _ _ (by decide),
      lookup_opt1_skip _ _ _ _ (by decide)]
  rw [lookup_opt1_head]
  cases u.scenario with
  | some s => rfl
  | none =>
    rw [lookup_opt1_skip _ _ _ _ (by decide)]
    cases u.years <;> simp [opt1, lookup_cons']

theorem uToList_rev_lookup_period (u : POVUpdate) :
    (uToList u).reverse.lookup "period" = u.period.map some := by
  rw [uToList_rev,
      lookup_optA_skip _ _ _ _ (by decide),
      lookup_opt1_skip _ _ _ _ (by decide),
      lookup_opt1_skip _ _ _ _ (by decide),
      lookup_opt1_skip _ _ _ _ (by decide),
      lookup_opt1_skip _ _ _ _ (by decide),
      lookup_opt1_skip _ _ _ _ (by decide),
      lookup_opt1_skip _ _ _ _ (by decide),
      lookup_opt1_skip _ _ _ _ (by decide)]
  rw [lookup_opt1_head]
  cases u.period with
  | some s => rfl
  | none =>
    cases u.years <;> simp [opt1, lookup_cons']

theorem uToList_rev_lookup_years (u : POVUpdate) :
    (uToList u).reverse.lookup "years" = u.years.map some := by
  rw [uToList_rev,
      lookup_optA_skip _ _ _ _ (by decide),
      lookup_opt1_skip _ _ _ _ (by decide),
      lookup_opt1_skip _ _ _ _ (by decide),
      lookup_opt1_skip _ _ _ _ (by decide),
      lookup_opt1_skip _ _ _ _ (by decide),
      lookup_opt1_skip _ _ _ _ (by decide),
      lookup_opt1_skip _ _ _ _ (by decide),
      lookup_opt1_skip _ _ _ _ (by decide),
      lookup_opt1_skip _ _ _ _ (by decide)]
  cases u.years <;> simp [opt1, lookup_cons']

theorem povUpdate_years (p : POVState) (u : POVUpdate) :
    (povUpdate p u).years = u.years.getD p.years := by
  show getStrD (updList (povToDict p) (uToList u)) "years" "FY25" =
    u.years.getD p.years
  unfold getStrD
  rw [lookup_updList, uToList_rev_lookup_years]
  cases u.years with
  | some s => rfl
  | none =>
    have hbase : (povToDict p).lookup "years" = some (some p.years) := rfl
    simp only [Option.map_none', hbase]
    rfl

theorem povUpdate_period (p : POVState) (u : POVUpdate) :
    (povUpdate p u).period = u.period.getD p.period := by
  show getStrD (updList (povToDict p) (uToList u)) "period" "YearTotal" =
    u.period.getD p.period
  unfold getStrD
  rw [lookup_updList, uToList_rev_lookup_period]
  cases u.period with
  | some s => rfl
  | none =>
    have hbase : (povToDict p).lookup "period" = some (some p.period) := rfl
    simp only [Option.map_none', hbase]
    rfl

theorem povUpdate_scenario (p : POVState) (u : POVUpdate) :
    (povUpdate p u).scenario = u.scenario.getD p.scenario := by
  show getStrD (updList (povToDict p) (uToList u)) "scenario" "Actual" =
    u.scenario.getD p.scenario
  unfold getStrD
  rw [lookup_updList, uToList_rev_lookup_scenario]
  cases u.scenario with
  | some s => rfl
  | none =>
    have hbase : (povToDict p).lookup "scenario" = some (some p.scenario) := rfl
    simp only [Option.map_none', hbase]
    rfl

theorem povUpdate_version (p : POVState) (u : POVUpdate) :
    (povUpdate p u).version = u.version.getD p.version := by
  show getStrD (updList (povToDict p) (uToList u)) "version" "Final" =
    u.version.getD p.version
  unfold getStrD
  rw [lookup_updList, uToList_rev_lookup_version]
  cases u.version with
  | some s => rfl
  | none =>
    have hbase : (povToDict p).lookup "version" = some (some p.version) := rfl
    simp only [Option.map_none', hbase]
    rfl

theorem povUpdate_currency (p : POVState) (u : POVUpdate) :
    (povUpdate p u).currency = u.currency.getD p.currency := by
  show getStrD (updList (povToDict p) (uToList u)) "currency" "USD" =
    u.currency.getD p.currency
  unfold getStrD
  rw [lookup_updList, uToList_rev_lookup_currency]
  cases u.currency with
  | some s => rfl
  | none =>
    have hbase : (povToDict p).lookup "currency" = some (some p.currency) := rfl
    simp only [Option.map_none', hbase]
    rfl

theorem povUpdate_entity (p : POVState) (u : POVUpdate) :
    (povUpdate p u).entity = u.entity.getD p.entity := by
  show getStrD (updList (povToDict p) (uToList u)) "entity" "E501" =
    u.entity.getD p.entity
  unfold getStrD
  rw [lookup_updList, uToList_rev_lookup_entity]
  cases u.entity with
  | some s => rfl
  | none =>
    have hbase : (povToDict p).lookup "entity" = some (some p.entity) := rfl
    simp only [Option.map_none', hbase]
    rfl

theorem povUpdate_cost_center (p : POVState) (u : POVUpdate) :
    (povUpdate p u).cost_center = u.cost_center.getD p.cost_center := by
  show getStrD (updList (povToDict p) (uToList u)) "cost_center" "CC9999" =
    u.cost_center.getD p.cost_center
  unfold getStrD
  rw [lookup_updList, uToList_rev_lookup_cost_center]
  cases u.cost_center with
  | some s => rfl
  | none =>
    have hbase : (povToDict p).lookup "cost_center" = some (some p.cost_center) := rfl
    simp only [Option.map_none', hbase]
    rfl

theorem povUpdate_future1 (p : POVState) (u : POVUpdate) :
    (povUpdate p u).future1 = u.future1.getD p.future1 := by
  show getStrD (updList (povToDict p) (uToList u)) "future1" "No Future1" =
    u.future1.getD p.future1
  unfold getStrD
  rw [lookup_updList, uToList_rev_lookup_future1]
  cases u.future1 with
  | some s => rfl
  | none =>
    have hbase : (povToDict p).lookup "future1" = some (some p.future1) := rfl
    simp only [Option.map_none', hbase]
    rfl

theorem povUpdate_region (p : POVState) (u : POVUpdate) :
    (povUpdate p u).region = u.region.getD p.region := by
  show getStrD (updList (povToDict p) (uToList u)) "region" "R131" =
    u.region.getD p.region
  unfold getStrD
  rw [lookup_updList, uToList_rev_lookup_region]
  cases u.region with
  | some s => rfl
  | none =>
    have hbase : (povToDict p).lookup "region" = some (some p.region) := rfl
    simp only [Option.map_none', hbase]
    rfl

theorem povUpdate_account (p : POVState) (u : POVUpdate) :
    (povUpdate p u).account = u.account.getD p.account := by
  show getOptD (updList (povToDict p) (uToList u)) "account" = u.account.getD p.account
  unfold getOptD
  rw [lookup_updList, uToList_rev_lookup_account]
  cases u.account with
  | some s => rfl
  | none =>
    have hbase : (povToDict p).lookup "account" = some p.account := rfl
    simp only [hbase]
    rfl

/-- C6: `POVState.update` is a pure functional update: every field
provided by the assignment is set to the assigned value, every other
field is taken unchanged from the receiver (the receiver, a value, is
never mutated — `update` builds a fresh `POVState` out of
`to_dict`/`dict.update`/`from_dict`), and applying the same assignment
twice yields exactly the same fields as applying it once. -/
theorem c6_pov_update_pure (p : POVState) (u : POVUpdate) :
    (povUpdate p u).years = u.years.getD p.years ∧
    (povUpdate p u).period = u.period.getD p.period ∧
    (povUpdate p u).scenario = u.scenario.getD p.scenario ∧
    (povUpdate p u).version = u.version.getD p.version ∧
    (povUpdate p u).currency = u.currency.getD p.currency ∧
    (povUpdate p u).entity = u.entity.getD p.entity ∧
    (povUpdate p u).cost_center = u.cost_center.getD p.cost_center ∧
    (povUpdate p u).future1 = u.future1.getD p.future1 ∧
    (povUpdate p u).region = u.region.getD p.region ∧
    (povUpdate p u).account = u.account.getD p.account ∧
    povUpdate (povUpdate p u) u = povUpdate p u := by
  refine ⟨povUpdate_years p u, povUpdate_period p u, povUpdate_scenario p u,
    povUpdate_version p u, povUpdate_currency p u, povUpdate_entity p u,
    povUpdate_cost_center p u, povUpdate_future1 p u, povUpdate_region p u,
    povUpdate_account p u, ?_⟩
  apply POVState.ext
  · rw [povUpdate_years (povUpdate p u) u, povUpdate_years p u]
    cases u.years <;> simp
  · rw [povUpdate_period (povUpdate p u) u, povUpdate_period p u]
    cases u.period <;> simp
  · rw [povUpdate_scenario (povUpdate p u) u, povUpdate_scenario p u]
    cases u.scenario <;> simp
  · rw [povUpdate_version (povUpdate p u) u, povUpdate_version p u]
    cases u.version <;> simp
  · rw [povUpdate_currency (povUpdate p u) u, povUpdate_currency p u]
    cases u.currency <;> simp
  · rw [povUpdate_entity (povUpdate p u) u, povUpdate_entity p u]
    cases u.entity <;> simp
  · rw [povUpdate_cost_center (povUpdate p u) u, povUpdate_cost_center p u]
    cases u.cost_center <;> simp
  · rw [povUpdate_future1 (povUpdate p u) u, povUpdate_future1 p u]
    cases u.future1 <;> simp
  · rw [povUpdate_region (povUpdate p u) u, povUpdate_region p u]
    cases u.region <;> simp
  · rw [povUpdate_account (povUpdate p u) u, povUpdate_account p u]
    cases u.account <;> simp

theorem addBounded_length {α : Type} (m : Nat) (l : List α) (x : α) :
    (addBounded m l x).length = min (l.length + 1) m := by
  show (List.drop ((l ++ [x]).length - m) (l ++ [x])).length = min (l.length + 1) m
  rw [List.length_drop, List.length_append, List.length_singleton]
  omega

theorem applyOps_bounds (mem : ConvMemory) (ops : List MemOp)
    (hq : mem.recent_queries.length ≤ 10) (hr : mem.recent_results.length ≤ 5) :
    (applyOps mem ops).recent_queries.length ≤ 10 ∧
      (applyOps mem ops).recent_results.length ≤ 5 := by
  induction ops generalizing mem with
  | nil => exact ⟨hq, hr⟩
  | cons op rest ih =>
    cases op with
    | query now q i e =>
      apply ih
      · show (addBounded 10 mem.recent_queries _).length ≤ 10
        rw [addBounded_length]
        omega
      · exact hr
    | result now t p s =>
      apply ih
      · exact hq
      · show (addBounded 5 mem.recent_results _).length ≤ 5
        rw [addBounded_length]
        omega

theorem addBounded_full {α : Type} (m : Nat) (l : List α) (x : α)
    (h : l.length = m) (hm : 0 < m) : addBounded m l x = l.drop 1 ++ [x] := by
  show List.drop ((l ++ [x]).length - m) (l ++ [x]) = l.drop 1 ++ [x]
  have hlen : (l ++ [x]).length - m = 1 := by
    rw [List.length_append, List.length_singleton]
    omega
  rw [hlen]
  cases l with
  | nil =>
    rw [List.length_nil] at h
    omega
  | cons y ys => rfl

/-- C7: the per-session buffers are bounded — any sequence of
`add_query`/`add_result` insertions into a fresh session leaves at most
10 recent queries and 5 recent results — and eviction is FIFO: an
insertion into a full buffer drops exactly the oldest entry. -/
theorem c7_bounded_fifo_buffers :
    (∀ ops : List MemOp, (applyOps {} ops).recent_queries.length ≤ 10 ∧
      (applyOps {} ops).recent_results.length ≤ 5) ∧
    (∀ (mem : ConvMemory) (now : Nat) (q i : String) (e : List (String × String)),
      mem.recent_queries.length = 10 →
      (addQuery mem now q i e).recent_queries =
        mem.recent_queries.drop 1 ++ [⟨q, i, e, now⟩]) ∧
    (∀ (mem : ConvMemory) (now : Nat) (t : String) (ps ss : List (String × String)),
      mem.recent_results.length = 5 →
      (addResult mem now t ps ss).recent_results =
        mem.recent_results.drop 1 ++ [⟨t, ps, ss, now⟩]) := by
  refine ⟨fun ops => applyOps_bounds {} ops (by simp) (by simp), ?_, ?_⟩
  · intro mem now q i e h
    exact addBounded_full 10 mem.recent_queries _ h (by omega)
  · intro mem now t ps ss h
    exact addBounded_full 5 mem.recent_results _ h (by omega)

/-- C7 witness: a fresh session receiving twelve queries and seven
results holds exactly the last ten queries and last five results, and a
full buffer evicts its head. -/
theorem c7_bounded_fifo_buffers_witness :
    ((applyOps {} (((List.range 12).map fun n => MemOp.query n "q" "i" []) ++
      ((List.range 7).map fun n => MemOp.result n "t" [] []))).recent_queries.length ≤ 10 ∧
      (applyOps {} (((List.range 12).map fun n => MemOp.query n "q" "i" []) ++
        ((List.range 7).map fun n => MemOp.result n "t" [] []))).recent_results.length ≤ 5) ∧
    (addQuery { recent_queries := (List.range 10).map fun n => ⟨"q", "i", [], n⟩ }
        99 "new" "i" []).recent_queries =
      ((List.range 10).map fun n => (⟨"q", "i", [], n⟩ : QueryRec)).drop 1 ++
        [⟨"new", "i", [], 99⟩] := by
  constructor
  · exact c7_bounded_fifo_buffers.1 _
  · exact c7_bounded_fifo_buffers.2.1 _ 99 "new" "i" [] (by decide)

theorem mergeStepParams_cons (params : List (String × String)) (x : String × String)
    (xs : List (String × String)) :
    mergeStepParams params (x :: xs) =
      mergeStepParams
        (if (match params.lookup x.1 with | some w => w == "" | none => true) ||
            (match params.lookup x.1 with
             | some w => prefixCS "%".toList w.toList
             | none => false) ||
            ((x.1 == "account" || x.1 == "entity") &&
              !(match stepDefaults.lookup x.1 with | some d => x.2 == d | none => false))
         then setKey params x.1 x.2 else params) xs := rfl

theorem mergeStep_lookup_none (suggested : List (String × String)) (k : String)
    (hk : suggested.lookup k = none) (params : List (String × String)) :
    (mergeStepParams params suggested).lookup k = params.lookup k := by
  induction suggested generalizing params with
  | nil => rfl
  | cons x xs ih =>
    rw [lookup_cons'] at hk
    by_cases hx : (k == x.1) = true
    · rw [hx] at hk
      simp at hk
    · have hxf : (k == x.1) = false := by
        cases hb : (k == x.1)
        · rfl
        · exact absurd hb hx
      rw [hxf] at hk
      simp only [Bool.false_eq_true, if_false] at hk
      rw [mergeStepParams_cons]
      rw [ih hk]
      split
      · exact lookup_setKey_ne params k x.1 x.2 (by simpa using hxf)
      · rfl

theorem mergeStep_lookup_some (suggested : List (String × String))
    (hnd : (suggested.map Prod.fst).Nodup) (k v : String)
    (hk : suggested.lookup k = some v) (params : List (String × String)) :
    (mergeStepParams params suggested).lookup k =
      (if (match params.lookup k with | some w => w == "" | none => true) ||
          (match params.lookup k with
           | some w => prefixCS "%".toList w.toList
           | none => false) ||
          ((k == "account" || k == "entity") &&
            !(match stepDefaults.lookup k with | some d => v == d | none => false))
       then some v else params.lookup k) := by
  induction suggested generalizing params with
  | nil => simp [List.lookup] at hk
  | cons x xs ih =>
    rw [lookup_cons'] at hk
    rw [List.map_cons, List.nodup_cons] at hnd
    by_cases hx : (k == x.1) = true
    · have hkx : k = x.1 := beq_iff_eq.mp hx
      rw [hx] at hk
      simp only [if_true] at hk
      have hv : x.2 = v := by
        simpa using hk
      have hxs : xs.lookup k = none := by
        apply lookup_none_of_keys
        intro kv hkv hceq
        apply hnd.1
        have hmem : kv.1 ∈ xs.map Prod.fst := List.mem_map_of_mem Prod.fst hkv
        rw [hceq, hkx] at hmem
        exact hmem
      rw [mergeStepParams_cons, mergeStep_lookup_none xs k hxs]
      rw [← hkx, hv]
      split
      · exact lookup_setKey_self params k v
      · rfl
    · have hxf : (k == x.1) = false := by
        cases hb : (k == x.1)
        · rfl
        · exact absurd hb hx
      rw [hxf] at hk
      simp only [Bool.false_eq_true, if_false] at hk
      rw [mergeStepParams_cons]
      have hkne : k ≠ x.1 := by simpa using hxf
      have hpre : (if (match params.lookup x.1 with | some w => w == "" | none => true) ||
          (match params.lookup x.1 with
           | some w => prefixCS "%".toList w.toList
           | none => false) ||
          ((x.1 == "account" || x.1 == "entity") &&
            !(match stepDefaults.lookup x.1 with | some d => x.2 == d | none => false))
         then setKey params x.1 x.2 else params).lookup k = params.lookup k := by
        split
        · exact lookup_setKey_ne params k x.1 x.2 hkne
        · rfl
      rw [ih hnd.2 hk _, hpre]

/-- C10: in the context-merge of `_execute_step`, a suggested `account`
always replaces the step's parameter, and a suggested `entity` replaces
it whenever the suggestion differs from the static default `"E501"`,
even over an explicitly provided non-placeholder value; for every other
key the suggestion is applied only when the parameter is missing, falsy
(empty), or a `"%"`-placeholder. -/
theorem c10_execute_step_param_merge (params suggested : List (String × String))
    (hnd : (suggested.map Prod.fst).Nodup) (k v : String)
    (hk : suggested.lookup k = some v) :
    ((k = "account" ∨ (k = "entity" ∧ v ≠ "E501")) →
      (mergeStepParams params suggested).lookup k = some v) ∧
    ((k ≠ "account" ∧ k ≠ "entity") →
      (mergeStepParams params suggested).lookup k =
        (match params.lookup k with
         | some w => if w = "" ∨ prefixCS "%".toList w.toList = true then some v else some w
         | none => some v)) := by
  rw [mergeStep_lookup_some suggested hnd k v hk params]
  constructor
  · rintro (rfl | ⟨rfl, hv⟩)
    · have hdef : stepDefaults.lookup "account" = none := rfl
      rw [hdef]
      simp
    · have hdef : stepDefaults.lookup "entity" = some "E501" := rfl
      rw [hdef]
      have hbeq : (v == "E501") = false := beq_eq_false_iff_ne.mpr hv
      simp [hbeq]
  · rintro ⟨ha, he⟩
    have h1 : (k == "account") = false := beq_eq_false_iff_ne.mpr ha
    have h2 : (k == "entity") = false := beq_eq_false_iff_ne.mpr he
    rw [h1, h2]
    cases hp : params.lookup k with
    | none => simp
    | some w =>
      simp only [Bool.false_or, Bool.false_and, Bool.or_false, Bool.and_false]
      by_cases hw : w = ""
      · have : (w == "") = true := beq_iff_eq.mpr hw
        rw [this]
        simp [hw]
      · have hwb : (w == "") = false := beq_eq_false_iff_ne.mpr hw
        rw [hwb]
        by_cases hph : prefixCS "%".toList w.toList = true
        · simp [hph, hw]
        · simp only [Bool.false_eq_true, false_or] at hph ⊢
          simp [hph, hw]

/-- C10 witness: a suggested non-default entity `"E999"` overrides an
explicit entity `"E100"`, and a suggested `years` only fills the
placeholder `"%CurYr"`. -/
theorem c10_execute_step_param_merge_witness :
    ([("entity", "E999"), ("years", "FY25"), ("scenario", "Actual")].map
        (Prod.fst (α := String) (β := String))).Nodup ∧
    (mergeStepParams [("entity", "E100"), ("years", "%CurYr"), ("period", "Jan")]
      [("entity", "E999"), ("years", "FY25"), ("scenario", "Actual")]).lookup "entity" =
        some "E999" ∧
    (mergeStepParams [("entity", "E100"), ("years", "%CurYr"), ("period", "Jan")]
      [("entity", "E999"), ("years", "FY25"), ("scenario", "Actual")]).lookup "years" =
        some "FY25" ∧
    (mergeStepParams [("entity", "E100"), ("years", "%CurYr"), ("period", "Jan")]
      [("entity", "E999"), ("years", "FY25"), ("scenario", "Actual")]).lookup "period" =
        some "Jan" := by
  refine ⟨by decide, ?_, ?_, ?_⟩
  · exact (c10_execute_step_param_merge _ _ (by decide) "entity" "E999" (by decide)).1
      (Or.inr ⟨rfl, by decide⟩)
  · rw [(c10_execute_step_param_merge _ _ (by decide) "years" "FY25" (by decide)).2
      ⟨by decide, by decide⟩]
    decide
  · rw [mergeStep_lookup_none _ _ (by decide) _]
    decide

theorem keys_ne_of_lookup_none {α : Type} (l : List (String × α)) (k : String)
    (h : l.lookup k = none) : ∀ kv ∈ l, kv.1 ≠ k := by
  induction l with
  | nil => intro kv hkv; simp at hkv
  | cons x xs ih =>
    rw [lookup_cons'] at h
    by_cases hx : (k == x.1) = true
    · rw [hx] at h
      simp at h
    · have hxf : (k == x.1) = false := by
        cases hb : (k == x.1)
        · rfl
        · exact absurd hb hx
      rw [hxf] at h
      simp only [Bool.false_eq_true, if_false] at h
      intro kv hkv
      rcases List.mem_cons.mp hkv with rfl | hm
      · intro hc
        rw [hc] at hxf
        simp at hxf
      · exact ih h kv hm

theorem lookup_reverse_of_nodup {α : Type} (l : List (String × α))
    (hnd : (l.map Prod.fst).Nodup) (k : String) :
    l.reverse.lookup k = l.lookup k := by
  induction l with
  | nil => rfl
  | cons x xs ih =>
    have hxlem : ([x] : List (String × α)).lookup k =
        if k == x.1 then some x.2 else none := lookup_cons' x [] k
    have hrhs : (x :: xs).lookup k = if k == x.1 then some x.2 else xs.lookup k :=
      lookup_cons' x xs k
    rw [List.reverse_cons, lookup_append', hrhs]
    rw [List.map_cons, List.nodup_cons] at hnd
    by_cases hx : (k == x.1) = true
    · have hkx : k = x.1 := beq_iff_eq.mp hx
      have hxs : xs.lookup k = none := by
        apply lookup_none_of_keys
        intro kv hkv hc
        apply hnd.1
        have hmem : kv.1 ∈ xs.map Prod.fst := List.mem_map_of_mem Prod.fst hkv
        rw [hc, hkx] at hmem
        exact hmem
      have hxsr : xs.reverse.lookup k = none := by
        apply lookup_none_of_keys
        intro kv hkv hc
        exact keys_ne_of_lookup_none xs k hxs kv (List.mem_reverse.mp hkv) hc
      rw [hxsr, hx]
      simp only [if_true]
      rw [hxlem, hx]
      simp
    · have hxf : (k == x.1) = false := by
        cases hb : (k == x.1)
        · rfl
        · exact absurd hb hx
      rw [ih hnd.2, hxf]
      simp only [Bool.false_eq_true, if_false]
      cases hxs : xs.lookup k
      · rw [hxlem, hxf]
        simp
      · rfl

/-- C4: when the rule-based confidence is below the configured
threshold and the LLM collaborator answers, `_classify_intent` adopts
the LLM result only on strictly higher confidence, merging entity maps
with LLM entities overriding matching keys; otherwise (not strictly
higher, or the threshold already met) the rule-based result is kept
unchanged. -/
theorem c4_llm_adoption_and_merge (threshold : Frac) (rule l : OIntent)
    (hth : fLt rule.confidence threshold = true)
    (hnd : (l.entities.map Prod.fst).Nodup) :
    (fLt rule.confidence l.confidence = true →
      classifyIntentMerge threshold rule (some l) =
        { name := l.name, confidence := l.confidence
        , entities := updList rule.entities l.entities
        , suggested_tools := l.suggested_tools, sub_intent := rule.sub_intent }) ∧
    (fLt rule.confidence l.confidence = false →
      classifyIntentMerge threshold rule (some l) = rule) ∧
    (∀ k v, l.entities.lookup k = some v →
      (updList rule.entities l.entities).lookup k = some v) ∧
    (∀ k, l.entities.lookup k = none →
      (updList rule.entities l.entities).lookup k = rule.entities.lookup k) := by
  refine ⟨?_, ?_, ?_, ?_⟩
  · intro hgt
    unfold classifyIntentMerge
    rw [hth]
    simp only [if_true]
    rw [hgt]
    simp
  · intro hle
    unfold classifyIntentMerge
    rw [hth]
    simp only [if_true]
    rw [hle]
    simp
  · intro k v hkv
    rw [lookup_updList, lookup_reverse_of_nodup l.entities hnd k, hkv]
  · intro k hkn
    have hrev : l.entities.reverse.lookup k = none := by
      apply lookup_none_of_keys
      intro kv hm hc
      exact keys_ne_of_lookup_none l.entities k hkn kv (List.mem_reverse.mp hm) hc
    rw [lookup_updList, hrev]

/-- C4 witness: with threshold `0.7`, a rule result at confidence `0.2`
and an LLM answer at `0.9`, the LLM result is adopted and its entity
`scenario` overrides the rule's; a second LLM answer at `0.1` is
rejected. -/
theorem c4_llm_adoption_and_merge_witness :
    (classifyIntentMerge ⟨7, 10⟩
        ⟨"data_retrieval", ⟨2, 10⟩, [("scenario", "Actual"), ("year", "FY25")],
          ["smart_retrieve"], none⟩
        (some ⟨"variance_analysis", ⟨9, 10⟩, [("scenario", "Forecast")],
          ["smart_retrieve_variance"], none⟩)).entities.lookup "scenario" =
      some "Forecast" ∧
    (classifyIntentMerge ⟨7, 10⟩
        ⟨"data_retrieval", ⟨2, 10⟩, [("scenario", "Actual"), ("year", "FY25")],
          ["smart_retrieve"], none⟩
        (some ⟨"variance_analysis", ⟨1, 10⟩, [("scenario", "Forecast")],
          ["smart_retrieve_variance"], none⟩)) =
      ⟨"data_retrieval", ⟨2, 10⟩, [("scenario", "Actual"), ("year", "FY25")],
        ["smart_retrieve"], none⟩ := by
  constructor
  · rw [(c4_llm_adoption_and_merge ⟨7, 10⟩
      ⟨"data_retrieval", ⟨2, 10⟩, [("scenario", "Actual"), ("year", "FY25")],
        ["smart_retrieve"], none⟩
      ⟨"variance_analysis", ⟨9, 10⟩, [("scenario", "Forecast")],
        ["smart_retrieve_variance"], none⟩ (by decide) (by decide)).1 (by decide)]
    exact (c4_llm_adoption_and_merge ⟨7, 10⟩
      ⟨"data_retrieval", ⟨2, 10⟩, [("scenario", "Actual"), ("year", "FY25")],
        ["smart_retrieve"], none⟩
      ⟨"variance_analysis", ⟨9, 10⟩, [("scenario", "Forecast")],
        ["smart_retrieve_variance"], none⟩ (by decide) (by decide)).2.2.1
        "scenario" "Forecast" (by decide)
  · exact (c4_llm_adoption_and_merge ⟨7, 10⟩
      ⟨"data_retrieval", ⟨2, 10⟩, [("scenario", "Actual"), ("year", "FY25")],
        ["smart_retrieve"], none⟩
      ⟨"variance_analysis", ⟨1, 10⟩, [("scenario", "Forecast")],
        ["smart_retrieve_variance"], none⟩ (by decide) (by decide)).2.1 (by decide)

theorem getLast?_mem' {α : Type} (l : List α) (x : α) (h : l.getLast? = some x) : x ∈ l := by
  rcases List.mem_getLast?_eq_getLast (l := l) (x := x) (by simp [h]) with ⟨hne, rfl⟩
  exact List.getLast_mem hne

theorem depsBackward_nil : depsBackward [] := by
  intro i hi
  simp at hi

theorem depsBackward_snoc (steps : List PStep) (st : PStep) (h : depsBackward steps)
    (hd : ∀ d ∈ st.depends_on, d ∈ steps.map fun s => s.id) :
    depsBackward (steps ++ [st]) := by
  intro i hi d hdi
  rw [List.length_append, List.length_singleton] at hi
  by_cases hlt : i < steps.length
  · have hb : i < (steps ++ [st]).length := by rw [List.length_append]; omega
    have hget : (steps ++ [st])[i] = steps[i] := List.getElem_append_left hlt
    rw [List.take_append_of_le_length (by omega)]
    exact h i hlt d (by rwa [hget] at hdi)
  · have hi' : i = steps.length := by omega
    subst hi'
    have hb2 : steps.length < (steps ++ [st]).length := by simp
    have hget : (steps ++ [st])[steps.length] = st := by simp
    rw [hget] at hdi
    rw [List.take_append_of_le_length (by omega), List.take_length]
    exact hd d hdi

theorem calcDeps_sub (existing : List PStep) (g : Nat) :
    ∀ d ∈ calcDeps existing g, d ∈ existing.map fun s => s.id := by
  intro d hd
  unfold calcDeps at hd
  split at hd
  · simp at hd
  · rcases List.mem_map.mp hd with ⟨s, hs, rfl⟩
    exact List.mem_map_of_mem _ (List.mem_of_mem_filter hs)

theorem fallbackSteps_backward (available : List String) :
    depsBackward (fallbackSteps available) := by
  intro i hi d hdi
  have h1 : (fallbackSteps available).length = 1 := rfl
  rw [h1] at hi
  have hi0 : i = 0 := by omega
  subst hi0
  have hdeps : (fallbackSteps available)[0].depends_on = [] := by
    unfold fallbackSteps
    rfl
  rw [hdeps] at hdi
  simp at hdi

theorem build_steps_backward (tpls : List TStep) (entities : List (String × String))
    (available : List String) :
    ∀ (acc : List PStep) (cnt : Nat), depsBackward acc →
    depsBackward ((tpls.foldl (fun (acc : List PStep × Nat) tpl =>
      if available.contains tpl.tool then
        let cnt := acc.2 + 1
        let params := updList (filterParamsForTool tpl.tool entities) tpl.params_template
        let st : PStep :=
          { id := cnt, tool_name := tpl.tool, parameters := params
          , depends_on := calcDeps acc.1 tpl.parallel_group, description := tpl.desc
          , parallel_group := tpl.parallel_group, optional := tpl.optional }
        (acc.1 ++ [st], cnt)
      else acc) (acc, cnt)).1) := by
  induction tpls with
  | nil => exact fun acc cnt h => h
  | cons tpl rest ih =>
    intro acc cnt h
    rw [List.foldl_cons]
    by_cases hav : available.contains tpl.tool
    · simp only [hav, if_true]
      exact ih _ _ (depsBackward_snoc acc _ h (calcDeps_sub acc tpl.parallel_group))
    · simp only [hav, Bool.false_eq_true, if_false]
      exact ih acc cnt h

theorem dyn_steps_backward (tools : List (Nat × String)) (entities : List (String × String)) :
    ∀ (acc : List PStep), depsBackward acc →
    depsBackward (tools.foldl (fun (acc : List PStep) it =>
      acc ++ [{ id := acc.length + 1, tool_name := it.2
              , parameters := filterParamsForTool it.2 entities
              , depends_on := match acc.getLast? with
                  | some prev => [prev.id]
                  | none => []
              , description := "Execute " ++ it.2
              , parallel_group := it.1, optional := false }]) acc) := by
  induction tools with
  | nil => exact fun acc h => h
  | cons it rest ih =>
    intro acc h
    rw [List.foldl_cons]
    apply ih
    apply depsBackward_snoc acc _ h
    intro d hd
    simp only [] at hd
    cases hlast : acc.getLast? with
    | none => rw [hlast] at hd; simp at hd
    | some prev =>
      rw [hlast] at hd
      rcases List.mem_singleton.mp hd with rfl
      exact List.mem_map_of_mem _ (getLast?_mem' acc prev hlast)

/-- C5: every plan `create_plan` returns — under the pattern strategy,
the dynamic strategy or the fallback — only references earlier steps in
`depends_on`: each listed id is the id of a step assigned strictly
earlier in the same plan (no forward or cyclic references). -/
theorem c5_depends_on_is_backward (intent : String) (entities : List (String × String))
    (available : List String) (subIntent : Option String)
    (suggested : Option (List String)) (userQuery : Option String) :
    depsBackward (createPlan intent entities available subIntent suggested userQuery).steps := by
  unfold createPlan
  cases matchPattern intent entities subIntent userQuery with
  | some pat =>
    have hsteps : (buildFromPattern pat entities available).steps =
        (if (pat.steps.foldl (fun (acc : List PStep × Nat) tpl =>
          if available.contains tpl.tool then
            let cnt := acc.2 + 1
            let params := updList (filterParamsForTool tpl.tool entities) tpl.params_template
            let st : PStep :=
              { id := cnt, tool_name := tpl.tool, parameters := params
              , depends_on := calcDeps acc.1 tpl.parallel_group, description := tpl.desc
              , parallel_group := tpl.parallel_group, optional := tpl.optional }
            (acc.1 ++ [st], cnt)
          else acc) ([], 0)).1.isEmpty then fallbackSteps available
        else (pat.steps.foldl (fun (acc : List PStep × Nat) tpl =>
          if available.contains tpl.tool then
            let cnt := acc.2 + 1
            let params := updList (filterParamsForTool tpl.tool entities) tpl.params_template
            let st : PStep :=
              { id := cnt, tool_name := tpl.tool, parameters := params
              , depends_on := calcDeps acc.1 tpl.parallel_group, description := tpl.desc
              , parallel_group := tpl.parallel_group, optional := tpl.optional }
            (acc.1 ++ [st], cnt)
          else acc) ([], 0)).1) := rfl
    show depsBackward (buildFromPattern pat entities available).steps
    rw [hsteps]
    split
    · exact fallbackSteps_backward available
    · exact build_steps_backward pat.steps entities available [] 0 depsBackward_nil
  | none =>
    have hsteps : (dynamicPlan intent entities available suggested).steps =
        (if (((dynamicTools intent available suggested).take 3).enum.foldl
            (fun (acc : List PStep) it =>
              acc ++ [{ id := acc.length + 1, tool_name := it.2
                      , parameters := filterParamsForTool it.2 entities
                      , depends_on := match acc.getLast? with
                          | some prev => [prev.id]
                          | none => []
                      , description := "Execute " ++ it.2
                      , parallel_group := it.1, optional := false }]) []).isEmpty then
          fallbackSteps available
        else ((dynamicTools intent available suggested).take 3).enum.foldl
            (fun (acc : List PStep) it =>
              acc ++ [{ id := acc.length + 1, tool_name := it.2
                      , parameters := filterParamsForTool it.2 entities
                      , depends_on := match acc.getLast? with
                          | some prev => [prev.id]
                          | none => []
                      , description := "Execute " ++ it.2
                      , parallel_group := it.1, optional := false }]) []) := rfl
    show depsBackward (dynamicPlan intent entities available suggested).steps
    rw [hsteps]
    split
    · exact fallbackSteps_backward available
    · exact dyn_steps_backward _ entities [] depsBackward_nil

theorem fallbackSteps_ne_nil (available : List String) : fallbackSteps available ≠ [] := by
  unfold fallbackSteps
  intro hc
  simp at hc

theorem buildFromPattern_ne_nil (pat : PatternSpec) (entities : List (String × String))
    (available : List String) : (buildFromPattern pat entities available).steps ≠ [] := by
  show (if (pat.steps.foldl _ ([], 0)).1.isEmpty then fallbackSteps available
    else (pat.steps.foldl _ ([], 0)).1) ≠ []
  split
  · exact fallbackSteps_ne_nil available
  · rename_i h
    intro hc
    rw [hc] at h
    simp at h

theorem dynamicPlan_ne_nil (intent : String) (entities : List (String × String))
    (available : List String) (suggested : Option (List String)) :
    (dynamicPlan intent entities available suggested).steps ≠ [] := by
  show (if (((dynamicTools intent available suggested).take 3).enum.foldl _ []).isEmpty then
    fallbackSteps available
    else ((dynamicTools intent available suggested).take 3).enum.foldl _ []) ≠ []
  split
  · exact fallbackSteps_ne_nil available
  · rename_i h
    intro hc
    rw [hc] at h
    simp at h

/-- C9 (amended): `create_plan` never returns an empty plan — both
strategies fall back to a single synthesized informational step — and
when neither the pattern strategy matches nor the dynamic strategy has
an available tool, the plan is exactly the fallback step, which uses
`get_application_info` when available and otherwise the first available
tool. -/
theorem c9_plan_never_empty :
    (∀ (intent : String) (entities : List (String × String)) (available : List String)
      (subIntent : Option String) (suggested : Option (List String))
      (userQuery : Option String),
      (createPlan intent entities available subIntent suggested userQuery).steps ≠ []) ∧
    (∀ (intent : String) (entities : List (String × String)) (available : List String)
      (subIntent : Option String) (suggested : Option (List String))
      (userQuery : Option String),
      matchPattern intent entities subIntent userQuery = none →
      dynamicTools intent available suggested = [] →
      (createPlan intent entities available subIntent suggested userQuery).steps =
        fallbackSteps available) := by
  constructor
  · intro intent entities available subIntent suggested userQuery
    unfold createPlan
    cases matchPattern intent entities subIntent userQuery with
    | some pat => exact buildFromPattern_ne_nil pat entities available
    | none => exact dynamicPlan_ne_nil intent entities available suggested
  · intro intent entities available subIntent suggested userQuery hm hd
    unfold createPlan
    rw [hm]
    show (if (((dynamicTools intent available suggested).take 3).enum.foldl _ []).isEmpty then
      fallbackSteps available
      else ((dynamicTools intent available suggested).take 3).enum.foldl _ []) =
      fallbackSteps available
    rw [hd]
    rfl

/-- C9 counterexample: with available tools
`["copy_data", "get_application_info"]` and neither strategy yielding a
step, the synthesized no-op step uses `get_application_info`, not the
first available tool `"copy_data"`. -/
theorem c9_counterexample_fallback_not_first_tool :
    matchPattern "data_retrieval" [] none none = none ∧
    dynamicTools "data_retrieval" ["copy_data", "get_application_info"] none = [] ∧
    (createPlan "data_retrieval" [] ["copy_data", "get_application_info"]
        none none none).steps.map (fun s => s.tool_name) = ["get_application_info"] ∧
    ["copy_data", "get_application_info"].head? = some "copy_data" ∧
    "get_application_info" ≠ "copy_data" := by
  refine ⟨by decide, by decide, by decide, by decide, by decide⟩

/-- C9 witness: with only `copy_data` deployed and an unknown intent,
neither strategy yields a step and the plan is exactly the fallback
step on the first (only) available tool. -/
theorem c9_plan_never_empty_witness :
    (createPlan "unknown" [] ["copy_data"] none none none).steps ≠ [] ∧
    (createPlan "unknown" [] ["copy_data"] none none none).steps =
      fallbackSteps ["copy_data"] ∧
    (fallbackSteps ["copy_data"]).map (fun s => s.tool_name) = ["copy_data"] := by
  refine ⟨c9_plan_never_empty.1 "unknown" [] ["copy_data"] none none none,
    c9_plan_never_empty.2 "unknown" [] ["copy_data"] none none none
      (by decide) (by decide), by decide⟩

theorem filter_pg0_of_all1 (l : List PStep) (h : ∀ s ∈ l, s.parallel_group = 1) :
    l.filter (fun s => s.parallel_group == 0) = [] := by
  induction l with
  | nil => rfl
  | cons s rest ih =>
    have hs : s.parallel_group = 1 := h s (List.mem_cons_self _ _)
    rw [List.filter_cons_of_neg]
    · exact ih fun t ht => h t (List.mem_cons_of_mem _ ht)
    · rw [hs]
      decide

theorem dedupKeep_zero_ones (l : List Nat) (h : ∀ x ∈ l, x = 1) :
    dedupKeep (0 :: l) = [0] ∨ dedupKeep (0 :: l) = [0, 1] := by
  have aux : ∀ (l2 : List Nat), (∀ x ∈ l2, x = 1) → ∀ acc : List Nat,
      (acc = [0] ∨ acc = [0, 1]) →
      ((l2.foldl (fun acc k => if acc.contains k then acc else acc ++ [k]) acc) = [0] ∨
        (l2.foldl (fun acc k => if acc.contains k then acc else acc ++ [k]) acc) = [0, 1]) := by
    intro l2
    induction l2 with
    | nil => exact fun _ acc hacc => hacc
    | cons x xs ih =>
      intro hall acc hacc
      rw [List.foldl_cons]
      have hx : x = 1 := hall x (List.mem_cons_self _ _)
      subst hx
      apply ih fun t ht => hall t (List.mem_cons_of_mem _ ht)
      rcases hacc with rfl | rfl
      · right
        decide
      · right
        decide
  exact aux l h [0] (Or.inl rfl)

theorem executeGroups_cons (par : Bool) (ex : PStep → StepRes) (steps : List PStep)
    (k : Nat) (ks : List Nat) (acc : List StepRes) :
    executeGroups par ex steps (k :: ks) acc =
      (let g := steps.filter fun s => s.parallel_group == k
       let acc2 := if par && g.length > 1 then acc ++ g.map ex else acc ++ seqRun ex g
       if groupHalt acc2 g then acc2 else executeGroups par ex steps ks acc2) := rfl

/-- C1 (amended): when the sole step of group 0 is mandatory and its
result has status `"error"`, no later group runs: the result list is
exactly that one result and the success flag is false.  (This is the
surviving half of the claim; the counterexample below shows a mandatory
failure inside a mixed group does not halt later groups, because the
halting test inspects only the last result and the last scheduled step
of the group.) -/
theorem c1_sole_mandatory_failure_halts (par : Bool) (ex : PStep → StepRes)
    (A : PStep) (rest : List PStep)
    (hA : A.parallel_group = 0) (hrest : ∀ s ∈ rest, s.parallel_group = 1)
    (hopt : A.optional = false) (herr : (ex A).status = "error") :
    executePlan par ex (A :: rest) = [ex A] ∧ successOf [ex A] = false := by
  have hmap : (A :: rest).map (fun s => s.parallel_group) =
      0 :: rest.map fun s => s.parallel_group := by
    rw [List.map_cons, hA]
  have hones : ∀ x ∈ rest.map fun s => s.parallel_group, x = 1 := by
    intro x hx
    rcases List.mem_map.mp hx with ⟨s, hs, rfl⟩
    exact hrest s hs
  have hg : (A :: rest).filter (fun s => s.parallel_group == 0) = [A] := by
    rw [List.filter_cons_of_pos]
    · rw [filter_pg0_of_all1 rest hrest]
    · rw [hA]
      decide
  have hseq : seqRun ex [A] = [ex A] := by
    show (if (ex A).status == "error" && !A.optional then [ex A]
      else ex A :: seqRun ex []) = [ex A]
    rw [herr, hopt]
    rfl
  have hhalt : groupHalt [ex A] [A] = true := by
    show ((ex A).status == "error" && !A.optional) = true
    rw [herr, hopt]
    rfl
  have hrun : ∀ ks : List Nat, executeGroups par ex (A :: rest) (0 :: ks) [] = [ex A] := by
    intro ks
    rw [executeGroups_cons]
    simp only [hg, hseq]
    have hlen : ¬ (par && [A].length > 1) = true := by
      simp
    rw [if_neg hlen]
    rw [List.nil_append, if_pos hhalt]
  have hsucc : successOf [ex A] = false := by
    show ((ex A).status == "success" && true) = false
    rw [herr]
    rfl
  constructor
  · show executeGroups par ex (A :: rest)
      (sortAsc (dedupKeep ((A :: rest).map fun s => s.parallel_group))) [] = [ex A]
    rw [hmap]
    rcases dedupKeep_zero_ones _ hones with hdk | hdk
    · rw [hdk]
      have : sortAsc [0] = [0] := rfl
      rw [this]
      exact hrun []
    · rw [hdk]
      have : sortAsc [0, 1] = [0, 1] := rfl
      rw [this]
      exact hrun [1]
  · exact hsucc

/-- C1 counterexample: group 0 holds a mandatory step (id 1, fails) and
an optional step (id 2, succeeds), group 1 holds step 3; run in
parallel mode, the mandatory failure does NOT halt group 1 — three
results are collected — because the halting test looks only at the
group's last result and last scheduled step. -/
theorem c1_counterexample_mandatory_failure_does_not_halt :
    (executePlan true
      (fun s => if s.id = 1 then ⟨"error"⟩ else ⟨"success"⟩)
      [ ⟨1, "a", [], [], "", 0, false⟩
      , ⟨2, "b", [], [], "", 0, true⟩
      , ⟨3, "c", [], [1], "", 1, false⟩ ]) =
      [⟨"error"⟩, ⟨"success"⟩, ⟨"success"⟩] ∧
    (⟨1, "a", [], [], "", 0, false⟩ : PStep).optional = false ∧
    ((fun (s : PStep) => if s.id = 1 then (⟨"error"⟩ : StepRes) else ⟨"success"⟩)
      ⟨1, "a", [], [], "", 0, false⟩).status = "error" ∧
    (⟨3, "c", [], [1], "", 1, false⟩ : PStep).parallel_group = 1 := by
  refine ⟨by decide, by decide, by decide, by decide⟩

/-- C1 witness: the spec scenario — a sole mandatory step in group 0
whose tool call errors, followed by a group-1 step — yields exactly one
result and `success = false`. -/
theorem c1_sole_mandatory_failure_halts_witness :
    executePlan true (fun _ => ⟨"error"⟩)
      [⟨1, "a", [], [], "", 0, false⟩, ⟨2, "b", [], [1], "", 1, false⟩] =
      [⟨"error"⟩] ∧
    successOf [⟨"error"⟩] = false := by
  have h := c1_sole_mandatory_failure_halts true (fun _ => ⟨"error"⟩)
    ⟨1, "a", [], [], "", 0, false⟩ [⟨2, "b", [], [1], "", 1, false⟩]
    (by decide) (by decide) (by decide) (by decide)
  simpa using h
